import Mathlib

/-!
Verification of the Swick card-game engine (`src/backend/src/rooms/GameRoom.ts`,
second / current iteration of the `GameRoom` class, plus the schema files).

The TypeScript source is shallowly embedded: pure rule predicates become Lean
functions on `Card` lists; the per-room mutable state becomes the `GState`
structure with message handlers and phase procedures as `GState → GState`
functions (the synchronous part of each procedure, up to the first scheduled
delay, which is where all state mutations of interest happen).  Card strings
(`'♠︎'…`, `'7'…'A'`) are embedded as the inductives `Suit` and `Value`; JS
numbers holding money amounts are embedded as `Int` (the code never floors
ante deductions, so balances can go negative); `Math.floor(x / 3)` on the pot
is `Int.fdiv`.
-/

/-- The four suits of `availableSuits` in `cardValues.ts`. -/
inductive Suit where
  | spades | hearts | clubs | diamonds
deriving DecidableEq, Repr

/-- The eight ranks of `availableValues` in `cardValues.ts`. -/
inductive Value where
  | v7 | v8 | v9 | v10 | vJ | vQ | vK | vA
deriving DecidableEq, Repr

/-- A card (`Card` schema): an immutable suit/value pair.  The `visible` and
`selected` flags are presentation state and do not affect any rule predicate,
so they are not carried here. -/
structure Card where
  suit : Suit
  value : Value
deriving DecidableEq, Repr

/-- The numeric rank used by `GameRoom.cardBeats` (`getValue`: `'7' ↦ 7` …
`'A' ↦ 14`). -/
def getValue : Value → Nat
  | Value.vA => 14
  | Value.vK => 13
  | Value.vQ => 12
  | Value.vJ => 11
  | Value.v10 => 10
  | Value.v9 => 9
  | Value.v8 => 8
  | Value.v7 => 7

/-- `GameRoom.cardBeats`: card 1 beats card 2 iff its numeric rank is
strictly higher (suits are handled by the callers). -/
def cardBeats (c1 c2 : Card) : Bool :=
  getValue c1.value > getValue c2.value

/-- One step of the highest-card scan in `GameRoom.getHighestCardOfSuit`:
`if (this.cardBeats(playedCard.card, highest.card)) highest = playedCard`. -/
def bestOf (best c : Card) : Card :=
  if cardBeats c best then c else best

/-- `GameRoom.getHighestCardOfSuit`: among the cards of `s` in the trick,
scan for the highest one (`cardBeats` comparison, first-of-equals kept),
or `none` when the trick holds no card of `s`. -/
def getHighestCardOfSuit (trick : List Card) (s : Suit) : Option Card :=
  match trick.filter (fun c => c.suit == s) with
  | [] => none
  | h :: t => some ((h :: t).foldl bestOf h)

/-- `GameRoom.isValidCardPlay`, validating a candidate card against the
current trick.  The seat test `isFirstPlayerAfterDealer` is passed in as the
boolean `isFirstAfterDealer` (both the code and the five-rule reference use
the same seat notion, computed elsewhere). -/
def isValidCardPlay (trumpSuit : Suit) (trickNumber : Nat)
    (isFirstAfterDealer : Bool) (hand : List Card)
    (currentTrick : List Card) (cardToPlay : Card) : Bool :=
  -- Special rule: first player to dealer's left must lead the Ace of trump
  if currentTrick.isEmpty && trickNumber == 1 && isFirstAfterDealer
      && hand.any (fun c => c.value == Value.vA && c.suit == trumpSuit)
      && !(cardToPlay.value == Value.vA && cardToPlay.suit == trumpSuit) then
    false
  else
    match currentTrick with
    | [] => true
    | lead :: _ =>
      if hand.any (fun c => c.suit == lead.suit) then
        -- must follow suit
        if cardToPlay.suit != lead.suit then
          false
        else
          match getHighestCardOfSuit currentTrick lead.suit with
          | none => true
          | some highest =>
            if !cardBeats cardToPlay highest
                && hand.any (fun c => c.suit == lead.suit && cardBeats c highest) then
              false
            else
              true
      else
        -- cannot follow suit: must trump if able
        if hand.any (fun c => c.suit == trumpSuit) && cardToPlay.suit != trumpSuit then
          false
        else
          true

/-- Rank position in the spec's fixed order `7<8<9<10<J<Q<K<A` (§4.2). -/
def rankIndex : Value → Nat
  | Value.v7 => 0
  | Value.v8 => 1
  | Value.v9 => 2
  | Value.v10 => 3
  | Value.vJ => 4
  | Value.vQ => 5
  | Value.vK => 6
  | Value.vA => 7

/-- The rank of the current best led-suit card of the trick (spec §4.2
rule 3): the maximal `rankIndex` among the trick's cards of the led suit. -/
def bestLeadRank (trick : List Card) (leadSuit : Suit) : Nat :=
  ((trick.filter (fun c => c.suit == leadSuit)).map (fun c => rankIndex c.value)).foldr max 0

/-- The five-rule legal-play reference of spec §4.2, stated rule by rule:
1. empty trick, trick #1, seat immediately left of dealer, trump Ace held →
   must lead it; 2. empty trick otherwise → any card; 3. led suit held →
   must follow suit, and must beat the current best led-suit card when able;
4. no led suit but trump held → must trump; 5. otherwise any card. -/
def legalPlaySpec (trumpSuit : Suit) (trickNumber : Nat)
    (isFirstAfterDealer : Bool) (hand : List Card)
    (currentTrick : List Card) (cardToPlay : Card) : Bool :=
  match currentTrick with
  | [] =>
    if trickNumber == 1 && isFirstAfterDealer
        && hand.any (fun c => c.value == Value.vA && c.suit == trumpSuit) then
      -- rule 1: must lead the trump Ace
      cardToPlay.value == Value.vA && cardToPlay.suit == trumpSuit
    else
      -- rule 2: any card is legal
      true
  | lead :: _ =>
    if hand.any (fun c => c.suit == lead.suit) then
      -- rule 3: follow suit, and beat the best led-suit card if able
      cardToPlay.suit == lead.suit &&
        (if hand.any (fun c => c.suit == lead.suit
              && rankIndex c.value > bestLeadRank currentTrick lead.suit) then
          decide (rankIndex cardToPlay.value > bestLeadRank currentTrick lead.suit)
        else
          true)
    else if hand.any (fun c => c.suit == trumpSuit) then
      -- rule 4: must play trump
      cardToPlay.suit == trumpSuit
    else
      -- rule 5: any card is legal
      true

/-- `getValue` and `rankIndex` induce the same strict order on ranks. -/
lemma getValue_lt_iff_rankIndex_lt (v w : Value) :
    (getValue v < getValue w) ↔ (rankIndex v < rankIndex w) := by
  cases v <;> cases w <;> simp only [getValue, rankIndex] <;> omega

/-- `getValue` and `rankIndex` induce the same order on ranks. -/
lemma getValue_le_iff_rankIndex_le (v w : Value) :
    (getValue v ≤ getValue w) ↔ (rankIndex v ≤ rankIndex w) := by
  cases v <;> cases w <;> simp only [getValue, rankIndex] <;> omega

/-- The `bestOf` scan returns the start or an element of the list, and its
`getValue` bounds the start's and every element's. -/
lemma foldl_bestOf_spec (t : List Card) (b : Card) :
    (t.foldl bestOf b = b ∨ t.foldl bestOf b ∈ t) ∧
    getValue b.value ≤ getValue (t.foldl bestOf b).value ∧
    ∀ c ∈ t, getValue c.value ≤ getValue (t.foldl bestOf b).value := by
  induction t generalizing b with
  | nil => simp
  | cons x xs ih =>
    have hstep : (x :: xs).foldl bestOf b = xs.foldl bestOf (bestOf b x) := rfl
    by_cases hx : cardBeats x b
    · have hbx : bestOf b x = x := by simp [bestOf, hx]
      rw [hstep, hbx]
      obtain ⟨h1, h2, h3⟩ := ih x
      refine ⟨?_, ?_, ?_⟩
      · rcases h1 with h1 | h1
        · exact Or.inr (by rw [h1]; exact List.mem_cons_self x xs)
        · exact Or.inr (List.mem_cons_of_mem x h1)
      · have hb : getValue b.value ≤ getValue x.value := by
          simp only [cardBeats, decide_eq_true_eq] at hx
          omega
        exact le_trans hb h2
      · intro c hc
        rcases List.mem_cons.mp hc with rfl | hc
        · exact h2
        · exact h3 c hc
    · have hbx : bestOf b x = b := by simp [bestOf, hx]
      rw [hstep, hbx]
      obtain ⟨h1, h2, h3⟩ := ih b
      refine ⟨?_, ?_, ?_⟩
      · rcases h1 with h1 | h1
        · exact Or.inl h1
        · exact Or.inr (List.mem_cons_of_mem x h1)
      · exact h2
      · intro c hc
        rcases List.mem_cons.mp hc with rfl | hc
        · have hcb : getValue c.value ≤ getValue b.value := by
            simp only [cardBeats, decide_eq_true_eq] at hx
            omega
          exact le_trans hcb h2
        · exact h3 c hc

/-- A `max`-fold is bounded by any common upper bound of the list. -/
lemma foldr_max_le (l : List Nat) (a : Nat) (hb : ∀ b ∈ l, b ≤ a) :
    l.foldr max 0 ≤ a ∨ l = [] := by
  induction l with
  | nil => exact Or.inr rfl
  | cons x xs ih =>
    left
    have hx : x ≤ a := hb x (List.mem_cons_self x xs)
    rcases ih (fun b h => hb b (List.mem_cons_of_mem x h)) with h | h
    · simpa using max_le hx h
    · subst h
      simpa using hx

/-- Every member is bounded by the `max`-fold. -/
lemma le_foldr_max (l : List Nat) (a : Nat) (ha : a ∈ l) : a ≤ l.foldr max 0 := by
  induction l with
  | nil => cases ha
  | cons x xs ih =>
    rcases List.mem_cons.mp ha with rfl | hxs
    · exact le_max_left _ _
    · exact le_trans (ih hxs) (le_max_right _ _)

/-- A `max`-fold over a list equals any member bounding all members. -/
lemma foldr_max_eq_of_mem_of_bound (l : List Nat) (a : Nat)
    (ha : a ∈ l) (hb : ∀ b ∈ l, b ≤ a) : l.foldr max 0 = a := by
  rcases foldr_max_le l a hb with h | h
  · exact le_antisymm h (le_foldr_max l a ha)
  · subst h; cases ha

/-- When the trick holds a card of suit `s`, `getHighestCardOfSuit` returns a
card from the trick whose `rankIndex` is exactly `bestLeadRank` and whose
`getValue` bounds all led-suit cards of the trick. -/
lemma getHighestCardOfSuit_spec (trick : List Card) (s : Suit) (hi : Card)
    (h : getHighestCardOfSuit trick s = some hi) :
    hi ∈ trick.filter (fun c => c.suit == s) ∧
      rankIndex hi.value = bestLeadRank trick s ∧
      ∀ c ∈ trick.filter (fun c => c.suit == s),
        getValue c.value ≤ getValue hi.value := by
  unfold getHighestCardOfSuit at h
  cases hfil : trick.filter (fun c => c.suit == s) with
  | nil => rw [hfil] at h; simp at h
  | cons x xs =>
    rw [hfil] at h
    simp only [Option.some.injEq] at h
    subst h
    -- the code folds over the full filtered list starting at its head;
    -- the first step is a self-comparison no-op
    have hself : bestOf x x = x := by
      simp [bestOf]
    have hstep : (x :: xs).foldl bestOf x = xs.foldl bestOf x := by
      show xs.foldl bestOf (bestOf x x) = xs.foldl bestOf x
      rw [hself]
    rw [hstep]
    obtain ⟨h1, h2, h3⟩ := foldl_bestOf_spec xs x
    have hmem : xs.foldl bestOf x ∈ x :: xs := by
      rcases h1 with h1 | h1
      · rw [h1]; exact List.mem_cons_self x xs
      · exact List.mem_cons_of_mem x h1
    have hbound : ∀ c ∈ x :: xs, getValue c.value ≤ getValue (xs.foldl bestOf x).value := by
      intro c hc
      rcases List.mem_cons.mp hc with rfl | hc
      · exact h2
      · exact h3 c hc
    refine ⟨?_, ?_, ?_⟩
    · exact hmem
    · unfold bestLeadRank
      rw [hfil]
      have hmr := List.mem_map_of_mem (fun c => rankIndex c.value) hmem
      refine (foldr_max_eq_of_mem_of_bound ((x :: xs).map (fun c => rankIndex c.value))
        (rankIndex (xs.foldl bestOf x).value) hmr ?_).symm
      intro b hbmem
      obtain ⟨c, hc, rfl⟩ := List.mem_map.mp hbmem
      exact (getValue_le_iff_rankIndex_le c.value _).mp (hbound c hc)
    · intro c hc
      exact hbound c hc

/-- **C1.** For every trump suit, trick number, seat flag, hand, current
trick and candidate card, the engine's legal-play check
(`GameRoom.isValidCardPlay`, with `cardBeats` as its rank comparison) accepts
exactly the plays allowed by the five-rule reference of spec §4.2. -/
theorem isValidCardPlay_matches_spec (trumpSuit : Suit) (trickNumber : Nat)
    (isFirstAfterDealer : Bool) (hand : List Card)
    (currentTrick : List Card) (cardToPlay : Card) :
    isValidCardPlay trumpSuit trickNumber isFirstAfterDealer hand currentTrick cardToPlay
      = legalPlaySpec trumpSuit trickNumber isFirstAfterDealer hand currentTrick cardToPlay := by
  cases currentTrick with
  | nil =>
    unfold isValidCardPlay legalPlaySpec
    by_cases h1 : trickNumber == 1
    · by_cases h2 : isFirstAfterDealer
      · by_cases h3 : hand.any (fun c => c.value == Value.vA && c.suit == trumpSuit)
        · simp only [List.isEmpty_nil, h1, h2, h3, Bool.true_and, Bool.and_true]
          by_cases h4 : cardToPlay.value == Value.vA && cardToPlay.suit == trumpSuit
          · simp [h4]
          · simp [h4]
        · simp [h1, h2, h3]
      · simp [h2]
    · simp [h1]
  | cons lead rest =>
    -- the trick is non-empty: the special Ace rule does not bite, and the
    -- filtered led-suit cards are non-empty, so the code finds a highest card
    obtain ⟨hi, hhi⟩ : ∃ hi, getHighestCardOfSuit (lead :: rest) lead.suit = some hi := by
      unfold getHighestCardOfSuit
      cases hfil : (lead :: rest).filter (fun c => c.suit == lead.suit) with
      | nil =>
        exfalso
        have : lead ∈ (lead :: rest).filter (fun c => c.suit == lead.suit) := by
          simp [List.mem_filter]
        rw [hfil] at this
        cases this
      | cons x xs => exact ⟨_, rfl⟩
    obtain ⟨_, hrank, _⟩ := getHighestCardOfSuit_spec _ _ _ hhi
    have hbridge : ∀ c : Card,
        cardBeats c hi = decide (rankIndex c.value > bestLeadRank (lead :: rest) lead.suit) := by
      intro c
      rw [← hrank]
      unfold cardBeats
      rw [decide_eq_decide]
      exact getValue_lt_iff_rankIndex_lt hi.value c.value
    unfold isValidCardPlay legalPlaySpec
    simp only [List.isEmpty_cons, Bool.false_and, Bool.and_false,
      Bool.false_eq_true, if_false, hhi]
    by_cases hfollow : hand.any (fun c => c.suit == lead.suit) = true
    · simp only [hfollow, if_true, Bool.true_and]
      by_cases hsuit : (cardToPlay.suit == lead.suit) = true
      · have hbne : (cardToPlay.suit != lead.suit) = false := by
          simp only [bne, hsuit, Bool.not_true]
        have hcan : (hand.any fun c => c.suit == lead.suit && cardBeats c hi)
            = (hand.any fun c => c.suit == lead.suit
                && decide (rankIndex c.value > bestLeadRank (lead :: rest) lead.suit)) := by
          congr 1
          funext c
          rw [hbridge c]
        simp only [hbne, Bool.false_eq_true, if_false, hbridge cardToPlay, hcan, hsuit,
          Bool.true_and]
        by_cases hbeats :
            decide (rankIndex cardToPlay.value > bestLeadRank (lead :: rest) lead.suit) = true
        · simp [hbeats]
        · simp only [Bool.not_eq_true] at hbeats
          by_cases hany : (hand.any fun c => c.suit == lead.suit
              && decide (rankIndex c.value > bestLeadRank (lead :: rest) lead.suit)) = true
          · simp [hbeats, hany]
          · simp only [Bool.not_eq_true] at hany
            simp [hbeats, hany]
      · have hsuit' : (cardToPlay.suit == lead.suit) = false := by
          simpa using hsuit
        have hbne : (cardToPlay.suit != lead.suit) = true := by
          simp only [bne, hsuit', Bool.not_false]
        simp [hbne, hsuit']
    · simp only [Bool.not_eq_true] at hfollow
      simp only [hfollow, Bool.false_eq_true, if_false]
      by_cases htr : hand.any (fun c => c.suit == trumpSuit) = true
      · by_cases hts : (cardToPlay.suit == trumpSuit) = true
        · have hbne : (cardToPlay.suit != trumpSuit) = false := by
            simp only [bne, hts, Bool.not_true]
          simp [htr, hts, hbne]
        · have hts' : (cardToPlay.suit == trumpSuit) = false := by simpa using hts
          have hbne : (cardToPlay.suit != trumpSuit) = true := by
            simp only [bne, hts', Bool.not_false]
          simp [htr, hts', hbne]
      · simp only [Bool.not_eq_true] at htr
        simp [htr]

/-! ### Card-location model: `Deck`, `Hand`, trick containers

`Deck.reset` builds the 32 suit/value pairs and shuffles (Fisher–Yates — a
permutation); `Deck.drawCard` pops the top (last) card or yields `null`.
Cards then move between containers: dealing (`startRound`), the trump draw,
`keepTrump` (the trump card is pushed into the dealer's hand while
`state.trumpCard` stays set), discard/draw (`onMessage('discardDraw')`
filters the selected cards out of the hand — dropping them — and draws
replacements), the dealer's final discard, `playCard` (hand → `currentTrick`)
and `completeTrick` (`currentTrick` → `completedTricks`).  The dropped
discards are tracked here in a ghost `discards` list so the spec's
conservation sum can be stated. -/

/-- `availableSuits` of `cardValues.ts`. -/
def availableSuits : List Suit :=
  [Suit.spades, Suit.hearts, Suit.clubs, Suit.diamonds]

/-- `availableValues` of `cardValues.ts`. -/
def availableValues : List Value :=
  [Value.v7, Value.v8, Value.v9, Value.v10, Value.vJ, Value.vQ, Value.vK, Value.vA]

/-- The 32 distinct cards created by `Deck.reset` (before shuffling). -/
def fullDeck : List Card :=
  availableSuits.flatMap (fun s => availableValues.map (fun v => ⟨s, v⟩))

/-- All card-holding locations of a hand in flight. -/
structure TableState where
  deck : List Card
  hands : List (List Card)
  /-- ghost location: cards filtered out of hands by discard/draw -/
  discards : List Card
  trumpCard : Option Card
  /-- set once `keepTrump` moves the trump card into the dealer's hand
  (the code keeps `state.trumpCard` pointing at it) -/
  trumpInDealerHand : Bool
  currentTrick : List Card
  completedTricks : List Card
deriving Repr, DecidableEq

/-- `Deck.drawCard`: pop the top (last) card, or a defined no-card result on
an empty deck. -/
def drawCard (d : List Card) : Option Card × List Card :=
  match d with
  | [] => (none, [])
  | x :: xs => (some ((x :: xs).getLast (by simp)), (x :: xs).dropLast)

/-- Draw `n` cards in sequence (`Hand.addCardFromDeck` repeated). -/
def drawN (d : List Card) (n : Nat) : List Card × List Card :=
  match n with
  | 0 => ([], d)
  | n + 1 =>
    match drawCard d with
    | (none, d') => ([], d')
    | (some c, d') => (c :: (drawN d' n).1, (drawN d' n).2)

/-- Deal one card from the deck into hand `i`
(`player.hand.addCardFromDeck(this.state.deck, true)`). -/
def dealToHand (s : TableState) (i : Nat) : TableState :=
  if i < s.hands.length then
    match drawCard s.deck with
    | (none, _) => s
    | (some c, d') =>
      { s with deck := d', hands := s.hands.set i (s.hands.getD i [] ++ [c]) }
  else s

/-- `this.state.trumpCard = this.state.deck.drawCard(true)` in `startRound`. -/
def drawTrump (s : TableState) : TableState :=
  match drawCard s.deck with
  | (oc, d') => { s with deck := d', trumpCard := oc, trumpInDealerHand := false }

/-- `onMessage('keepTrump')`, keep branch: the trump card is pushed into the
dealer's hand; `state.trumpCard` remains set. -/
def keepTrump (s : TableState) (i : Nat) : TableState :=
  match s.trumpCard with
  | none => s
  | some c =>
    if s.trumpInDealerHand then s
    else if i < s.hands.length then
      { s with hands := s.hands.set i (s.hands.getD i [] ++ [c]), trumpInDealerHand := true }
    else s

/-- `onMessage('discardDraw')`, normal branch: selected cards are filtered
out of the hand (the code drops them; the ghost `discards` records them) and
as many replacements are drawn. -/
def discardDraw (s : TableState) (i : Nat) (sel : Card → Bool) : TableState :=
  if i < s.hands.length then
    { s with deck := (drawN s.deck ((s.hands.getD i []).filter sel).length).2,
             hands := s.hands.set i ((s.hands.getD i []).filter (fun c => !sel c)
               ++ (drawN s.deck ((s.hands.getD i []).filter sel).length).1),
             discards := s.discards ++ (s.hands.getD i []).filter sel }
  else s

/-- `onMessage('discardDraw')`, dealer final-discard branch: the selected
card is removed with no draw. -/
def dealerFinalDiscard (s : TableState) (i : Nat) (sel : Card → Bool) : TableState :=
  if i < s.hands.length then
    { s with hands := s.hands.set i ((s.hands.getD i []).filter (fun c => !sel c)),
             discards := s.discards ++ (s.hands.getD i []).filter sel }
  else s

/-- `GameRoom.playCard`: the card leaves the hand and joins `currentTrick`. -/
def playCardFromHand (s : TableState) (i j : Nat) : TableState :=
  if i < s.hands.length then
    match (s.hands.getD i []).get? j with
    | none => s
    | some c =>
      { s with hands := s.hands.set i ((s.hands.getD i []).eraseIdx j),
               currentTrick := s.currentTrick ++ [c] }
  else s

/-- `completeTrick`: the trick's cards are recorded in `completedTricks` and
`currentTrick` is cleared. -/
def collectTrick (s : TableState) : TableState :=
  { s with completedTricks := s.completedTricks ++ s.currentTrick,
           currentTrick := [] }

/-- The post-`reset` state of a hand for `n` seated players: a shuffled
32-card deck, everything else empty. -/
def initialTable (d : List Card) (n : Nat) : TableState :=
  { deck := d, hands := List.replicate n [], discards := [], trumpCard := none,
    trumpInDealerHand := false, currentTrick := [], completedTricks := [] }

/-- One card-moving step of the engine within a hand.  The trump draw
carries the sequencing fact that it happens once per hand, before a trump
card exists (`state.trumpCard` is cleared at `end` and drawn only in
`startRound`). -/
inductive TableStep : TableState → TableState → Prop where
  | deal (s : TableState) (i : Nat) : TableStep s (dealToHand s i)
  | trump (s : TableState) (h : s.trumpCard = none) : TableStep s (drawTrump s)
  | keep (s : TableState) (i : Nat) : TableStep s (keepTrump s i)
  | discard (s : TableState) (i : Nat) (sel : Card → Bool) : TableStep s (discardDraw s i sel)
  | finalDiscard (s : TableState) (i : Nat) (sel : Card → Bool) :
      TableStep s (dealerFinalDiscard s i sel)
  | play (s : TableState) (i j : Nat) : TableStep s (playCardFromHand s i j)
  | collect (s : TableState) : TableStep s (collectTrick s)

/-- The card-location states a hand can reach from `Deck.reset`. -/
inductive TableReachable : TableState → Prop where
  | init (d : List Card) (n : Nat) (hd : d.Perm fullDeck) :
      TableReachable (initialTable d n)
  | step {s s' : TableState} : TableReachable s → TableStep s s' → TableReachable s'

/-- Cards held in players' hands. -/
def handCount (s : TableState) : Nat := (s.hands.map List.length).sum

/-- The trump card counts as its own location only while it sits on the
table (drawn and not yet moved into the dealer's hand). -/
def tableTrumpCount (s : TableState) : Nat :=
  match s.trumpCard with
  | none => 0
  | some _ => if s.trumpInDealerHand then 0 else 1

/-- Count of all card locations: deck, hands, discards, current trick,
completed tricks, and the table trump card. -/
def totalCards (s : TableState) : Nat :=
  s.deck.length + handCount s + s.discards.length + s.currentTrick.length
    + s.completedTricks.length + tableTrumpCount s

/-- The four-term sum of the claim, verbatim: hands + this-hand discards +
remaining deck + trump card (if drawn). -/
def claimedCount (s : TableState) : Nat :=
  handCount s + s.discards.length + s.deck.length
    + (match s.trumpCard with | none => 0 | some _ => 1)

/-- Drawing from a non-empty deck removes exactly one card. -/
lemma drawCard_some_length {d : List Card} {c : Card} {d' : List Card}
    (h : drawCard d = (some c, d')) : d'.length + 1 = d.length := by
  unfold drawCard at h
  cases d with
  | nil => simp at h
  | cons x xs =>
    simp only [Prod.mk.injEq, Option.some.injEq] at h
    obtain ⟨_, h2⟩ := h
    subst h2
    simp [List.length_dropLast]

/-- Drawing from an empty deck yields nothing and leaves it empty. -/
lemma drawCard_none {d d' : List Card} (h : drawCard d = (none, d')) :
    d = [] ∧ d' = [] := by
  unfold drawCard at h
  cases d with
  | nil => simp only [Prod.mk.injEq] at h; exact ⟨rfl, h.2.symm⟩
  | cons x xs => simp at h

/-- `drawN` conserves cards between the drawn list and the remaining deck. -/
lemma drawN_length (n : Nat) (d : List Card) :
    (drawN d n).1.length + (drawN d n).2.length = d.length := by
  induction n generalizing d with
  | zero => simp [drawN]
  | succ n ih =>
    unfold drawN
    rcases hdc : drawCard d with ⟨oc, d'⟩
    cases oc with
    | none =>
      obtain ⟨h1, h2⟩ := drawCard_none hdc
      subst h1; subst h2
      simp
    | some c =>
      have h1 := drawCard_some_length hdc
      have h2 := ih d'
      dsimp only
      simp only [List.length_cons]
      omega

/-- Replacing hand `i` changes the total hand count by the length
difference. -/
lemma sum_map_length_set (l : List (List Card)) (i : Nat) (x : List Card)
    (h : i < l.length) :
    ((l.set i x).map List.length).sum + (l.getD i []).length
      = (l.map List.length).sum + x.length := by
  induction l generalizing i with
  | nil => simp at h
  | cons y ys ih =>
    cases i with
    | zero => simp [List.set]; omega
    | succ n =>
      simp only [List.set, List.map_cons, List.sum_cons, List.getD_cons_succ]
      have := ih n (by simpa using Nat.lt_of_succ_lt_succ h)
      omega

/-- Filtering by `p` and by its negation splits a list's length. -/
lemma length_filter_not_add (l : List Card) (p : Card → Bool) :
    (l.filter (fun c => !p c)).length + (l.filter p).length = l.length := by
  induction l with
  | nil => rfl
  | cons x xs ih =>
    by_cases hx : p x = true
    · simp [List.filter_cons, hx]; omega
    · have hx' : p x = false := by simpa using hx
      simp [List.filter_cons, hx']; omega

lemma totalCards_dealToHand (s : TableState) (i : Nat) :
    totalCards (dealToHand s i) = totalCards s := by
  unfold dealToHand
  by_cases hi : i < s.hands.length
  · simp only [hi, if_true]
    rcases hdc : drawCard s.deck with ⟨oc, d'⟩
    cases oc with
    | none => rfl
    | some c =>
      have h1 := drawCard_some_length hdc
      have h2 := sum_map_length_set s.hands i (s.hands.getD i [] ++ [c]) hi
      dsimp only
      unfold totalCards handCount tableTrumpCount
      simp only [List.length_append, List.length_cons, List.length_nil] at h2 ⊢
      omega
  · simp [hi]

lemma totalCards_drawTrump (s : TableState) (h : s.trumpCard = none) :
    totalCards (drawTrump s) = totalCards s := by
  unfold drawTrump
  rcases hdc : drawCard s.deck with ⟨oc, d'⟩
  cases oc with
  | none =>
    obtain ⟨h1, h2⟩ := drawCard_none hdc
    dsimp only
    unfold totalCards handCount tableTrumpCount
    rw [h, h1, h2]
  | some c =>
    have h1 := drawCard_some_length hdc
    dsimp only
    unfold totalCards handCount tableTrumpCount
    rw [h]
    simp only [Bool.false_eq_true, if_false]
    omega

lemma totalCards_keepTrump (s : TableState) (i : Nat) :
    totalCards (keepTrump s i) = totalCards s := by
  unfold keepTrump
  cases htc : s.trumpCard with
  | none => rfl
  | some c =>
    by_cases hk : s.trumpInDealerHand
    · simp [hk]
    · by_cases hi : i < s.hands.length
      · have hk' : s.trumpInDealerHand = false := by simpa using hk
        have h2 := sum_map_length_set s.hands i (s.hands.getD i [] ++ [c]) hi
        simp only [hk', Bool.false_eq_true, if_false, hi, if_true]
        unfold totalCards handCount tableTrumpCount
        simp only [htc, hk', Bool.false_eq_true, if_false, eq_self_iff_true, if_true,
          List.length_append, List.length_cons, List.length_nil] at h2 ⊢
        omega
      · simp [hk, hi]

lemma totalCards_discardDraw (s : TableState) (i : Nat) (sel : Card → Bool) :
    totalCards (discardDraw s i sel) = totalCards s := by
  unfold discardDraw
  by_cases hi : i < s.hands.length
  · simp only [hi, if_true]
    have h1 := drawN_length (((s.hands.getD i []).filter sel).length) s.deck
    have h2 := sum_map_length_set s.hands i
      ((s.hands.getD i []).filter (fun c => !sel c)
        ++ (drawN s.deck ((s.hands.getD i []).filter sel).length).1) hi
    have h3 := length_filter_not_add (s.hands.getD i []) sel
    unfold totalCards handCount tableTrumpCount
    simp only [List.length_append] at h2 ⊢
    omega
  · simp [hi]

lemma totalCards_dealerFinalDiscard (s : TableState) (i : Nat) (sel : Card → Bool) :
    totalCards (dealerFinalDiscard s i sel) = totalCards s := by
  unfold dealerFinalDiscard
  by_cases hi : i < s.hands.length
  · simp only [hi, if_true]
    have h2 := sum_map_length_set s.hands i
      ((s.hands.getD i []).filter (fun c => !sel c)) hi
    have h3 := length_filter_not_add (s.hands.getD i []) sel
    unfold totalCards handCount tableTrumpCount
    simp only [List.length_append] at h2 ⊢
    omega
  · simp [hi]

lemma totalCards_playCardFromHand (s : TableState) (i j : Nat) :
    totalCards (playCardFromHand s i j) = totalCards s := by
  unfold playCardFromHand
  by_cases hi : i < s.hands.length
  · simp only [hi, if_true]
    cases hg : (s.hands.getD i []).get? j with
    | none => rfl
    | some c =>
      have hj : j < (s.hands.getD i []).length := by
        by_contra hcon
        rw [List.get?_eq_none.mpr (by omega)] at hg
        cases hg
      have h2 := sum_map_length_set s.hands i ((s.hands.getD i []).eraseIdx j) hi
      have h3 : ((s.hands.getD i []).eraseIdx j).length + 1
          = (s.hands.getD i []).length := List.length_eraseIdx_add_one hj
      unfold totalCards handCount tableTrumpCount
      simp only [List.length_append, List.length_cons, List.length_nil] at h2 ⊢
      omega
  · simp [hi]

lemma totalCards_collectTrick (s : TableState) :
    totalCards (collectTrick s) = totalCards s := by
  unfold collectTrick totalCards handCount tableTrumpCount
  simp only [List.length_append, List.length_nil]
  omega

/-- `fullDeck` holds 32 cards. -/
lemma fullDeck_length : fullDeck.length = 32 := by decide

/-- **C8 (amended).** Deck conservation over all reachable card-location
states of a hand: deck + hands + discards + current trick + completed tricks
+ the table trump card (counted only while it has not been moved into the
dealer's hand) always totals 32. -/
theorem totalCards_reachable (s : TableState) (h : TableReachable s) :
    totalCards s = 32 := by
  induction h with
  | init d n hd =>
    unfold totalCards handCount tableTrumpCount initialTable
    simp only [List.map_replicate, List.length_nil, List.sum_replicate, smul_zero,
      List.length_replicate]
    have := hd.length_eq
    rw [fullDeck_length] at this
    simpa using this
  | step _ hstep ih =>
    cases hstep with
    | deal i => rw [totalCards_dealToHand]; exact ih
    | trump htc => rw [totalCards_drawTrump _ htc]; exact ih
    | keep i => rw [totalCards_keepTrump]; exact ih
    | discard i sel => rw [totalCards_discardDraw]; exact ih
    | finalDiscard i sel => rw [totalCards_dealerFinalDiscard]; exact ih
    | play i j => rw [totalCards_playCardFromHand]; exact ih
    | collect => rw [totalCards_collectTrick]; exact ih

/-- A reachable phase-boundary state: 3 players dealt 3 cards each, trump
drawn, each player has played one card, trick collected (the
`turns → trick-complete` boundary). -/
def c8Boundary : TableState :=
  collectTrick (playCardFromHand (playCardFromHand (playCardFromHand
    (drawTrump (dealToHand (dealToHand (dealToHand (dealToHand (dealToHand (dealToHand
      (dealToHand (dealToHand (dealToHand (initialTable fullDeck 3) 0) 0) 0)
      1) 1) 1) 2) 2) 2)) 0 0) 1 0) 2 0)

/-- **C8 counterexample.** At the `turns → trick-complete` boundary of a
reachable hand, the claim's four-term sum — hands + discards + deck + trump
card (if drawn) — is 29, not 32: the three cards of the completed trick are
in no term of the sum. -/
theorem c8_claimed_sum_fails :
    TableReachable c8Boundary ∧ claimedCount c8Boundary = 29 ∧ claimedCount c8Boundary ≠ 32 := by
  refine ⟨?_, by decide, by decide⟩
  refine TableReachable.step ?_ (TableStep.collect _)
  refine TableReachable.step ?_ (TableStep.play _ 2 0)
  refine TableReachable.step ?_ (TableStep.play _ 1 0)
  refine TableReachable.step ?_ (TableStep.play _ 0 0)
  refine TableReachable.step ?_ (TableStep.trump _ (by decide))
  refine TableReachable.step ?_ (TableStep.deal _ 2)
  refine TableReachable.step ?_ (TableStep.deal _ 2)
  refine TableReachable.step ?_ (TableStep.deal _ 2)
  refine TableReachable.step ?_ (TableStep.deal _ 1)
  refine TableReachable.step ?_ (TableStep.deal _ 1)
  refine TableReachable.step ?_ (TableStep.deal _ 1)
  refine TableReachable.step ?_ (TableStep.deal _ 0)
  refine TableReachable.step ?_ (TableStep.deal _ 0)
  refine TableReachable.step ?_ (TableStep.deal _ 0)
  exact TableReachable.init fullDeck 3 (List.Perm.refl _)

/-- Witness for the amended conservation theorem at a concrete reachable
state (one card dealt). -/
theorem totalCards_reachable_witness :
    TableReachable (dealToHand (initialTable fullDeck 3) 0)
      ∧ totalCards (dealToHand (initialTable fullDeck 3) 0) = 32 := by
  have h : TableReachable (dealToHand (initialTable fullDeck 3) 0) :=
    TableReachable.step (TableReachable.init fullDeck 3 (List.Perm.refl _))
      (TableStep.deal _ 0)
  exact ⟨h, totalCards_reachable _ h⟩

/-! ### Engine state model (`GameState` / `Player` schema + `GameRoom` handlers)

State fields relevant to the claims.  String-typed schema fields that hold
either `''` or a suit/value are embedded as `Option Suit` / `Option Value`.
Handlers and phase procedures are `GState → GState` functions covering their
synchronous mutations (scheduled timers/delays only pause; the settlement
run by `endRound` before its delay is included in `endRoundSync`; the
post-delay cleanup of hand transients is not needed by any claim). -/

/-- The `roundState` values of `GameState`. -/
inductive RoundState where
  | idle | dealing | trumpSelection | knockIn | discardDraw | turns
  | trickComplete | specialHandWin | roundEnd
deriving DecidableEq, Repr

/-- `Player` schema, fields relevant to the claims. -/
structure PlayerS where
  sessionId : String
  money : Int
  bet : Int
  ready : Bool
  knockedIn : Bool
  hasKnockDecision : Bool
  hasDiscardDecision : Bool
  dealerCompletedNormalDiscard : Bool
  tricksWon : Nat
  wentSet : Bool
  setAmount : Int
  setType : String
  roundOutcome : String
  hand : List Card
deriving DecidableEq, Repr

instance : Inhabited PlayerS :=
  ⟨{ sessionId := "", money := 0, bet := 0, ready := false, knockedIn := false,
     hasKnockDecision := false, hasDiscardDecision := false,
     dealerCompletedNormalDiscard := false, tricksWon := 0, wentSet := false,
     setAmount := 0, setType := "", roundOutcome := "", hand := [] }⟩

/-- `PlayedCard` schema (play order is the list position). -/
structure PlayedCard where
  playerId : String
  card : Card
deriving DecidableEq, Repr

/-- `CompletedTrick` schema. -/
structure CompletedTrick where
  playedCards : List PlayedCard
  winnerId : String
  trickNumber : Nat
deriving DecidableEq, Repr

/-- `GameState` schema, fields relevant to the claims.  `players` is the
`MapSchema` in insertion order. -/
structure GState where
  roundState : RoundState
  players : List PlayerS
  dealerId : String
  potValue : Int
  nextRoundPotBonus : Int
  trumpSuit : Option Suit
  dealerKeptTrump : Bool
  dealerTrumpValue : Option Value
  currentTurnPlayerId : String
  currentKnockPlayerId : String
  currentDiscardPlayerId : String
  currentTrickNumber : Nat
  currentTrick : List PlayedCard
  completedTricks : List CompletedTrick
  trickLeaderId : String
  specialRoundOutcome : String
deriving DecidableEq, Repr

/-- `this.state.players.get(id)` (first player with the session id). -/
def findPlayer (ps : List PlayerS) (pid : String) : Option PlayerS :=
  ps.find? (fun p => p.sessionId == pid)

/-- In-place mutation of one player of the map. -/
def updatePlayer (ps : List PlayerS) (pid : String) (f : PlayerS → PlayerS) :
    List PlayerS :=
  ps.map (fun p => if p.sessionId == pid then f p else p)

/-- `['J', 'Q', 'K', 'A'].includes(trumpValue)`. -/
def isFaceValue (v : Value) : Bool :=
  v == Value.vJ || v == Value.vQ || v == Value.vK || v == Value.vA

/-- The going-set mutation of one player: record the set, subtract the
penalty, floor the balance at 0 (`calculateGoingSet`, apply branch). -/
def applySet (p : PlayerS) (amt : Int) (ty : String) : PlayerS :=
  { p with wentSet := true, setType := ty, setAmount := amt,
           money := if p.money - amt < 0 then 0 else p.money - amt }

/-- Per-player branch logic of `calculateGoingSet`: dealers who kept a face
trump need 2 tricks (double penalty), other knocked-in players need 1
(single penalty = pot). -/
def goingSetUpdate (st : GState) (p : PlayerS) : PlayerS :=
  if p.ready && p.knockedIn then
    if p.sessionId == st.dealerId && st.dealerKeptTrump then
      match st.dealerTrumpValue with
      | some v =>
        if isFaceValue v then
          if p.tricksWon < 2 then applySet p (2 * st.potValue) "double" else p
        else
          if p.tricksWon < 1 then applySet p st.potValue "single" else p
      | none =>
        -- `''` is not a face value: the low-trump branch applies
        if p.tricksWon < 1 then applySet p st.potValue "single" else p
    else
      if p.tricksWon < 1 then applySet p st.potValue "single" else p
  else p

/-- `totalSetAmount`: sum of set amounts of knocked-in players marked set. -/
def setPenaltyTotal (ps : List PlayerS) : Int :=
  (ps.map (fun p => if p.ready && p.knockedIn && p.wentSet then p.setAmount else 0)).sum

/-- `GameRoom.calculateGoingSet`. -/
def calculateGoingSet (st : GState) : GState :=
  { st with
      players := st.players.map (goingSetUpdate st),
      nextRoundPotBonus :=
        if setPenaltyTotal (st.players.map (goingSetUpdate st)) > 0 then
          setPenaltyTotal (st.players.map (goingSetUpdate st))
        else st.nextRoundPotBonus }

/-- `Math.floor(this.state.potValue / 3)`. -/
def trickValue (pot : Int) : Int := Int.fdiv pot 3

/-- Per-player payout of `awardTrickWinnings` at trick value `v`: winners
get tricks × value and are marked `'win'`; set players are marked `'lose'`
afterwards (overriding). -/
def awardUpd (v : Int) (p : PlayerS) : PlayerS :=
  if p.ready && p.knockedIn then
    if p.tricksWon > 0 then
      if p.wentSet then
        { p with money := p.money + (p.tricksWon : Int) * v, roundOutcome := "lose" }
      else
        { p with money := p.money + (p.tricksWon : Int) * v, roundOutcome := "win" }
    else
      if p.wentSet then { p with roundOutcome := "lose" } else p
  else p

/-- `GameRoom.awardTrickWinnings`. -/
def awardTrickWinnings (st : GState) : GState :=
  { st with players := st.players.map (awardUpd (trickValue st.potValue)) }

/-- `GameRoom.endRound` (second iteration), synchronous part: enter `end`,
run `calculateGoingSet` then `awardTrickWinnings` (the cleanup after the
display delay is not modelled). -/
def endRoundSync (st : GState) : GState :=
  awardTrickWinnings (calculateGoingSet { st with roundState := RoundState.roundEnd })

/-- `GameRoom.endRoundWithoutTricks`, synchronous part: enter `end` with no
settlement. -/
def endRoundWithoutTricksSync (st : GState) : GState :=
  { st with roundState := RoundState.roundEnd }

/-- `SpecialHand` record of `checkPlayerForSpecialHand`. -/
structure SpecialHand where
  shType : String
  priority : Nat
  playerId : String
deriving DecidableEq, Repr

/-- `GameRoom.checkPlayerForSpecialHand`: three Aces (priority 1) >
three 7s (priority 2) > exactly A-K-Q of trump (priority 3). -/
def checkPlayerForSpecialHand (st : GState) (p : PlayerS) : Option SpecialHand :=
  if p.hand.length != 3 then none
  else if p.hand.all (fun c => c.value == Value.vA) then
    some { shType := "three-aces", priority := 1, playerId := p.sessionId }
  else if p.hand.all (fun c => c.value == Value.v7) then
    some { shType := "three-sevens", priority := 2, playerId := p.sessionId }
  else
    match st.trumpSuit with
    | none => none
    | some ts =>
      if (p.hand.filter (fun c => c.suit == ts)).length == 3
          && (p.hand.any (fun c => c.value == Value.vA) && p.hand.any (fun c => c.suit == ts))
          && (p.hand.any (fun c => c.value == Value.vK) && p.hand.any (fun c => c.suit == ts))
          && (p.hand.any (fun c => c.value == Value.vQ) && p.hand.any (fun c => c.suit == ts)) then
        some { shType := "akq-trump", priority := 3, playerId := p.sessionId }
      else none

/-- `GameRoom.checkForSpecialHands` before its sort: special hands of the
ready knocked-in players in seating order. -/
def checkForSpecialHands (st : GState) : List SpecialHand :=
  (st.players.filter (fun p => p.ready && p.knockedIn)).filterMap
    (checkPlayerForSpecialHand st)

/-- `specialHands.sort((a, b) => a.priority - b.priority)` followed by
`[0]`: the first hand of minimal priority (the sort is stable). -/
def bestSpecialHand (st : GState) : Option SpecialHand :=
  (checkForSpecialHands st).foldl (fun acc h =>
    match acc with
    | none => some h
    | some b => if h.priority < b.priority then some h else some b) none

/-- `GameRoom.handleSpecialHandWin`: award the pot to the winner, mark the
other ready players losers, then `endRound()` (which still runs the full
settlement). -/
def handleSpecialHandWin (st : GState) (sh : SpecialHand) : GState :=
  match findPlayer st.players sh.playerId with
  | none => { st with roundState := RoundState.specialHandWin }
  | some _ =>
    endRoundSync
      { st with
          roundState := RoundState.specialHandWin,
          players := st.players.map (fun p =>
            if p.sessionId == sh.playerId then
              { p with money := p.money + st.potValue, roundOutcome := "win" }
            else if p.ready then { p with roundOutcome := "lose" }
            else p) }

/-- JS `Array.indexOf`: index or `-1`. -/
def jsIndexOf (ids : List String) (x : String) : Int :=
  match ids.indexOf? x with
  | some n => (n : Int)
  | none => -1

/-- `(knockedInPlayers.indexOf(dealerId) + 1) % knockedInPlayers.length`. -/
def firstAfterDealerIdx (ids : List String) (dealerId : String) : Nat :=
  ((jsIndexOf ids dealerId + 1) % (ids.length : Int)).toNat

/-- Session ids of ready knocked-in players, in seating order. -/
def knockedInIds (st : GState) : List String :=
  (st.players.filter (fun p => p.ready && p.knockedIn)).map (fun p => p.sessionId)

/-- `GameRoom.isFirstPlayerAfterDealer`. -/
def isFirstPlayerAfterDealerG (st : GState) (pid : String) : Bool :=
  (knockedInIds st).getD (firstAfterDealerIdx (knockedInIds st) st.dealerId) "" == pid

/-- `GameRoom.startTrickTakingPhase`: check special hands; none → enter
`turns` with the first trick led by the player left of the dealer. -/
def startTrickTakingPhase (st : GState) : GState :=
  match bestSpecialHand st with
  | some sh => handleSpecialHandWin st sh
  | none =>
    { st with
        roundState := RoundState.turns,
        currentTrick := [],
        currentTrickNumber := 1,
        trickLeaderId :=
          (knockedInIds st).getD (firstAfterDealerIdx (knockedInIds st) st.dealerId) "",
        currentTurnPlayerId :=
          (knockedInIds st).getD (firstAfterDealerIdx (knockedInIds st) st.dealerId) "" }

/-- The dealer mutation of `handleDealerAutoWin`: knocked in, decided,
3 tricks (symbolic), outcome `'win'`. -/
def autoWinUpd (p : PlayerS) : PlayerS :=
  { p with knockedIn := true, hasKnockDecision := true, tricksWon := 3,
           roundOutcome := "win" }

/-- `GameRoom.handleDealerAutoWin`: the dealer is marked knocked-in with 3
tricks and outcome `'win'`, then `endRound()` runs (whose
`awardTrickWinnings` pays the dealer 3 × ⌊pot/3⌋). -/
def handleDealerAutoWin (st : GState) : GState :=
  match findPlayer st.players st.dealerId with
  | none => endRoundSync st
  | some _ =>
    endRoundSync
      { st with
          specialRoundOutcome := "dealer-auto-win",
          players := updatePlayer st.players st.dealerId autoWinUpd }

/-- `GameRoom.getNonDealersInClockwiseOrder`: ready players rotated to start
just left of the dealer, dealer excluded (empty when the dealer is not among
the ready players). -/
def getNonDealersInClockwiseOrder (st : GState) : List PlayerS :=
  match (st.players.filter (fun p => p.ready)).findIdx?
      (fun p => p.sessionId == st.dealerId) with
  | none => []
  | some di =>
    (List.range ((st.players.filter (fun p => p.ready)).length - 1)).map (fun k =>
      (st.players.filter (fun p => p.ready)).getD
        ((di + k + 1) % (st.players.filter (fun p => p.ready)).length) default)

/-- `GameRoom.startNextDiscardTurn`: next knocked-in non-dealer without a
discard decision; when none remain, ask the dealer to knock (if undecided),
let a knocked-in dealer discard, or start trick-taking. -/
def startNextDiscardTurn (st : GState) : GState :=
  match ((getNonDealersInClockwiseOrder st).filter (fun p => p.knockedIn)).find?
      (fun p => !p.hasDiscardDecision) with
  | some p => { st with currentDiscardPlayerId := p.sessionId }
  | none =>
    match findPlayer st.players st.dealerId with
    | none => endRoundSync { st with currentDiscardPlayerId := "" }
    | some dealer =>
      if !dealer.hasKnockDecision then
        { st with currentDiscardPlayerId := "",
                  roundState := RoundState.knockIn,
                  currentKnockPlayerId := st.dealerId }
      else if dealer.knockedIn && !dealer.hasDiscardDecision then
        { st with currentDiscardPlayerId := st.dealerId }
      else
        startTrickTakingPhase { st with currentDiscardPlayerId := "" }

/-- `GameRoom.startDiscardDrawPhase`: enter `discard-draw`, reset the
knocked-in players' discard flags, hand the turn on. -/
def startDiscardDrawPhase (st : GState) : GState :=
  startNextDiscardTurn
    { st with
        roundState := RoundState.discardDraw,
        players := st.players.map (fun p =>
          if p.ready && p.knockedIn then { p with hasDiscardDecision := false } else p) }

/-- `GameRoom.checkNonDealerKnockDecisions`: nobody knocked in → dealer
auto-win; otherwise the discard/draw phase starts. -/
def checkNonDealerKnockDecisions (st : GState) : GState :=
  if ((st.players.filter (fun p => p.ready && p.sessionId != st.dealerId)).filter
      (fun p => p.knockedIn)).length == 0 then
    handleDealerAutoWin st
  else
    startDiscardDrawPhase st

/-- `GameRoom.startNextKnockTurn`. -/
def startNextKnockTurn (st : GState) : GState :=
  match (getNonDealersInClockwiseOrder st).find? (fun p => !p.hasKnockDecision) with
  | some p => { st with currentKnockPlayerId := p.sessionId }
  | none => checkNonDealerKnockDecisions { st with currentKnockPlayerId := "" }

/-- Dealer-pass charge of `onMessage('knockIn')`: always a single-tier
penalty of the pot, balance floored at 0, penalty added (`+=`) to
`nextRoundPotBonus`. -/
def chargeDealerSingle (st : GState) : GState :=
  { st with
      players := updatePlayer st.players st.dealerId (fun p =>
        { p with wentSet := true, setType := "single", setAmount := st.potValue,
                 money := if p.money - st.potValue < 0 then 0 else p.money - st.potValue }),
      nextRoundPotBonus := st.nextRoundPotBonus + st.potValue }

/-- `remainingPlayers`: ready knocked-in players. -/
def remainingKnockedIn (st : GState) : List PlayerS :=
  st.players.filter (fun p => p.ready && p.knockedIn)

/-- Dealer-pass block of `onMessage('knockIn')` (after the dealer's own
flags are updated): charge the single penalty; 0 players left → end the
hand, exactly 1 → auto-award 3 tricks and the pot to them and end, 2+ →
start trick-taking. -/
def dealerPassAtKnock (st : GState) : GState :=
  if (remainingKnockedIn (chargeDealerSingle st)).length == 0 then
    endRoundWithoutTricksSync (chargeDealerSingle st)
  else if (remainingKnockedIn (chargeDealerSingle st)).length == 1 then
    endRoundWithoutTricksSync
      { (chargeDealerSingle st) with
          players := (chargeDealerSingle st).players.map (fun p =>
            if p.ready && p.knockedIn then
              { p with tricksWon := 3, money := p.money + st.potValue,
                       roundOutcome := "win" }
            else p) }
  else
    startTrickTakingPhase (chargeDealerSingle st)

/-- `onMessage('knockIn')`: guards (phase, player exists and undecided,
exact required actor), then record the decision; a pass forfeits the hand
(`ready := false`); the dealer branches to discard or the pass block,
non-dealers hand the knock turn on. -/
def handleKnockIn (st : GState) (sender : String) (knockIn : Bool) : GState :=
  if st.roundState != RoundState.knockIn then st
  else
    match findPlayer st.players sender with
    | none => st
    | some player =>
      if player.hasKnockDecision then st
      else if sender != st.currentKnockPlayerId then st
      else
        if sender == st.dealerId then
          if knockIn then
            { st with
                players := updatePlayer st.players sender (fun p =>
                  { p with knockedIn := true, hasKnockDecision := true }),
                roundState := RoundState.discardDraw,
                currentDiscardPlayerId := st.dealerId }
          else
            dealerPassAtKnock
              { st with players := updatePlayer st.players sender (fun p =>
                  { p with knockedIn := false, hasKnockDecision := true, ready := false }) }
        else
          startNextKnockTurn
            { st with players := updatePlayer st.players sender (fun p =>
                { p with knockedIn := knockIn, hasKnockDecision := true,
                         ready := if !knockIn then false else p.ready }) }

/-- Dealer charge of `onMessage('dealerGoSet')`: leave the hand and pay the
single penalty (always single), floored, added to the bonus. -/
def chargeDealerGoSet (st : GState) : GState :=
  { st with
      players := updatePlayer st.players st.dealerId (fun p =>
        { p with knockedIn := false, hasKnockDecision := true, ready := false,
                 wentSet := true, setType := "single", setAmount := st.potValue,
                 money := if p.money - st.potValue < 0 then 0 else p.money - st.potValue }),
      nextRoundPotBonus := st.nextRoundPotBonus + st.potValue }

/-- `onMessage('dealerGoSet')`: guards (discard-draw phase, sender exists
and is the dealer, `goSet` true), then the charge; 0 players left → end the
hand, otherwise start trick-taking (even with a single player left). -/
def handleDealerGoSet (st : GState) (sender : String) (goSet : Bool) : GState :=
  if st.roundState != RoundState.discardDraw then st
  else
    match findPlayer st.players sender with
    | none => st
    | some _ =>
      if sender != st.dealerId then st
      else if goSet then
        if (remainingKnockedIn (chargeDealerGoSet st)).length == 0 then
          endRoundWithoutTricksSync (chargeDealerGoSet st)
        else
          startTrickTakingPhase (chargeDealerGoSet st)
      else st

/-- String-vs-suit test against an optional trump (`''` matches nothing). -/
def optSuitEq (os : Option Suit) (s : Suit) : Bool :=
  match os with
  | none => false
  | some t => t == s

/-- `GameRoom.determineTrickWinner`: scan from the first play; trump
unconditionally beats a non-trump winner; same category compares by rank;
anything else keeps the winner. -/
def determineTrickWinner (trick : List PlayedCard) (trump : Option Suit) :
    Option PlayedCard :=
  match trick with
  | [] => none
  | first :: _ =>
    some (trick.foldl (fun winner pc =>
      if optSuitEq trump pc.card.suit && !optSuitEq trump winner.card.suit then pc
      else if optSuitEq trump pc.card.suit && optSuitEq trump winner.card.suit then
        (if cardBeats pc.card winner.card then pc else winner)
      else if pc.card.suit == first.card.suit && winner.card.suit == first.card.suit then
        (if cardBeats pc.card winner.card then pc else winner)
      else winner) first)

/-- `GameRoom.completeTrick`, synchronous part: credit the winner, record
the completed trick, clear the trick; after 3 tricks run `endRound`,
otherwise the winner leads the next trick. -/
def completeTrickSync (st : GState) : GState :=
  match determineTrickWinner st.currentTrick st.trumpSuit with
  | none => st
  | some w =>
    if st.currentTrickNumber ≥ 3 then
      endRoundSync
        { st with
            players := updatePlayer st.players w.playerId (fun p =>
              { p with tricksWon := p.tricksWon + 1 }),
            completedTricks := st.completedTricks
              ++ [{ playedCards := st.currentTrick, winnerId := w.playerId,
                    trickNumber := st.currentTrickNumber }],
            trickLeaderId := w.playerId,
            currentTrick := [] }
    else
      { st with
          players := updatePlayer st.players w.playerId (fun p =>
            { p with tricksWon := p.tricksWon + 1 }),
          completedTricks := st.completedTricks
            ++ [{ playedCards := st.currentTrick, winnerId := w.playerId,
                  trickNumber := st.currentTrickNumber }],
          trickLeaderId := w.playerId,
          currentTrick := [],
          currentTrickNumber := st.currentTrickNumber + 1,
          currentTurnPlayerId := w.playerId,
          roundState := RoundState.turns }

/-- `(ids.indexOf(current) + 1) % ids.length`, the wrap-around successor. -/
def jsNextIdx (ids : List String) (cur : String) : Nat :=
  ((jsIndexOf ids cur + 1) % (ids.length : Int)).toNat

/-- `GameRoom.nextPlayerInTrick`: advance to the next knocked-in player. -/
def nextPlayerInTrick (st : GState) : GState :=
  { st with currentTurnPlayerId :=
      (knockedInIds st).getD (jsNextIdx (knockedInIds st) st.currentTurnPlayerId) "" }

/-- `GameRoom.playCard`: push the play, remove the card from the hand,
resolve the trick when every knocked-in player has played. -/
def playCardStep (st : GState) (pid : String) (c : Card) (idx : Nat) : GState :=
  if (st.currentTrick.length + 1)
      == ((updatePlayer st.players pid (fun q => { q with hand := q.hand.eraseIdx idx })).filter
          (fun q => q.ready && q.knockedIn)).length then
    completeTrickSync
      { st with
          currentTrick := st.currentTrick ++ [{ playerId := pid, card := c }],
          players := updatePlayer st.players pid (fun q => { q with hand := q.hand.eraseIdx idx }) }
  else
    nextPlayerInTrick
      { st with
          currentTrick := st.currentTrick ++ [{ playerId := pid, card := c }],
          players := updatePlayer st.players pid (fun q => { q with hand := q.hand.eraseIdx idx }) }

/-- `isValidCardPlay` with the engine's `''` trump embedding: no card has
the empty suit, so the Ace rule and the trump obligation never fire. -/
def isValidCardPlayNoTrump (hand : List Card) (currentTrick : List Card)
    (cardToPlay : Card) : Bool :=
  match currentTrick with
  | [] => true
  | lead :: _ =>
    if hand.any (fun c => c.suit == lead.suit) then
      if cardToPlay.suit != lead.suit then false
      else
        match getHighestCardOfSuit currentTrick lead.suit with
        | none => true
        | some highest =>
          if !cardBeats cardToPlay highest
              && hand.any (fun c => c.suit == lead.suit && cardBeats c highest) then
            false
          else true
    else true

/-- `GameRoom.isValidCardPlay` as invoked on the live state. -/
def isValidCardPlayG (st : GState) (p : PlayerS) (c : Card) : Bool :=
  match st.trumpSuit with
  | some ts =>
    isValidCardPlay ts st.currentTrickNumber (isFirstPlayerAfterDealerG st p.sessionId)
      p.hand (st.currentTrick.map (fun pc => pc.card)) c
  | none => isValidCardPlayNoTrump p.hand (st.currentTrick.map (fun pc => pc.card)) c

/-- `onMessage('playCard')`: guards (exact turn player, `turns` phase, index
in range), legality check, then the play. -/
def handlePlayCard (st : GState) (sender : String) (cardIndex : Nat) : GState :=
  if sender != st.currentTurnPlayerId then st
  else if st.roundState != RoundState.turns then st
  else
    match findPlayer st.players sender with
    | none => st
    | some player =>
      if cardIndex ≥ player.hand.length then st
      else
        match player.hand.get? cardIndex with
        | none => st
        | some cardToPlay =>
          if !(isValidCardPlayG st player cardToPlay) then st
          else playCardStep st sender cardToPlay cardIndex

/-- `gameConfig.dealerExtraAnte` (3¢). -/
def dealerExtraAnte : Int := 3

/-- Per-player ante of `startRound`: with a carry-over bonus the dealer pays
only the surcharge; otherwise the dealer pays ante + surcharge and everyone
else their ante. -/
def anteAmountFor (st : GState) (p : PlayerS) : Int :=
  if p.sessionId == st.dealerId then
    if st.nextRoundPotBonus > 0 then dealerExtraAnte else p.bet + dealerExtraAnte
  else p.bet

/-- `shouldPayAnte` of `startRound`: with a carry-over bonus only the dealer
pays. -/
def shouldPayAnte (st : GState) (p : PlayerS) : Bool :=
  if st.nextRoundPotBonus > 0 then p.sessionId == st.dealerId else true

/-- Ante collection of `startRound` over the ready players (the round
iterator's rotation does not affect who pays what). -/
def collectAntes (st : GState) : GState :=
  { st with
      players := st.players.map (fun p =>
        if p.ready && shouldPayAnte st p then
          { p with money := p.money - anteAmountFor st p }
        else p),
      potValue := st.potValue + (st.players.map (fun p =>
        if p.ready && shouldPayAnte st p then anteAmountFor st p else 0)).sum }

/-- Carry-over application of `startRound`, after dealing: the stored bonus
joins the pot and is cleared. -/
def applyCarryOverBonus (st : GState) : GState :=
  if st.nextRoundPotBonus > 0 then
    { st with potValue := st.potValue + st.nextRoundPotBonus, nextRoundPotBonus := 0 }
  else st

/-- The money flow of `startRound`'s dealing phase (card dealing is covered
by the `TableState` model). -/
def startRoundAnte (st : GState) : GState :=
  applyCarryOverBonus (collectAntes st)

/-! ### Concrete fixtures for counterexamples and witnesses -/

/-- A ready player with default per-hand fields, ante 3¢. -/
def mkPlayer (sid : String) (money : Int) : PlayerS :=
  { sessionId := sid, money := money, bet := 3, ready := true, knockedIn := false,
    hasKnockDecision := false, hasDiscardDecision := false,
    dealerCompletedNormalDiscard := false, tricksWon := 0, wentSet := false,
    setAmount := 0, setType := "", roundOutcome := "", hand := [] }

/-- A room state with the given players, dealer, pot and phase; no
carry-over, no trump kept, empty trick containers. -/
def mkState (ps : List PlayerS) (dealer : String) (pot : Int) (phase : RoundState) : GState :=
  { roundState := phase, players := ps, dealerId := dealer, potValue := pot,
    nextRoundPotBonus := 0, trumpSuit := none, dealerKeptTrump := false,
    dealerTrumpValue := none, currentTurnPlayerId := "", currentKnockPlayerId := "",
    currentDiscardPlayerId := "", currentTrickNumber := 1, currentTrick := [],
    completedTricks := [], trickLeaderId := "", specialRoundOutcome := "" }

/-- Knocked-in player `a` holding three Aces after discard/draw. -/
def c5A : PlayerS :=
  { mkPlayer "a" 100 with
      knockedIn := true
      hand := [⟨Suit.spades, Value.vA⟩, ⟨Suit.hearts, Value.vA⟩, ⟨Suit.clubs, Value.vA⟩] }

/-- Knocked-in player `b` with an ordinary hand. -/
def c5B : PlayerS :=
  { mkPlayer "b" 100 with
      knockedIn := true
      hand := [⟨Suit.spades, Value.v7⟩, ⟨Suit.hearts, Value.v8⟩, ⟨Suit.clubs, Value.v9⟩] }

/-- Knocked-in dealer `d` (kept no trump) with an ordinary hand. -/
def c5D : PlayerS :=
  { mkPlayer "d" 100 with
      knockedIn := true
      hand := [⟨Suit.spades, Value.v8⟩, ⟨Suit.hearts, Value.v9⟩, ⟨Suit.clubs, Value.v10⟩] }

/-- Post-discard state: 3 knocked-in players, pot 9¢, trump hearts, `a`
holds three Aces. -/
def c5State : GState :=
  { mkState [c5A, c5B, c5D] "d" 9 RoundState.discardDraw with trumpSuit := some Suit.hearts }

/-- **C5 (code bug).** At the failing input `c5State` (player `a` holds
three Aces after discard/draw, pot 9¢), the special-hand check fires and
awards `a` the pot — but `handleSpecialHandWin` then calls `endRound`,
whose `calculateGoingSet` sees every knocked-in player with 0 tricks: all
three go set for the pot, `a`'s net gain is 0¢, `awardTrickWinnings` marks
`a` `'lose'`, and 27¢ is recorded as next hand's carry-over.  The spec says
the winner keeps the entire pot and only the others are marked losers. -/
theorem specialHandWin_settlement_bug :
    bestSpecialHand c5State = some { shType := "three-aces", priority := 1, playerId := "a" }
    ∧ (startTrickTakingPhase c5State).roundState = RoundState.roundEnd
    ∧ ((startTrickTakingPhase c5State).players.getD 0 default).money = 100
    ∧ ((startTrickTakingPhase c5State).players.getD 0 default).roundOutcome = "lose"
    ∧ ((startTrickTakingPhase c5State).players.getD 0 default).wentSet = true
    ∧ ((startTrickTakingPhase c5State).players.getD 1 default).money = 91
    ∧ ((startTrickTakingPhase c5State).players.getD 2 default).money = 91
    ∧ (startTrickTakingPhase c5State).nextRoundPotBonus = 27 := by
  refine ⟨by decide, by decide, by decide, by decide, by decide, by decide, by decide, by decide⟩

/-- Dealer `d`, ready, before the auto-win. -/
def c6D : PlayerS := mkPlayer "d" 100

/-- Non-dealer who passed at knock-in (`ready := false`). -/
def c6B : PlayerS := { mkPlayer "b" 50 with ready := false, hasKnockDecision := true }

/-- Non-dealer who passed at knock-in (`ready := false`). -/
def c6C : PlayerS := { mkPlayer "c" 50 with ready := false, hasKnockDecision := true }

/-- Knock-in state after both non-dealers passed, pot 12¢. -/
def c6State : GState := mkState [c6D, c6B, c6C] "d" 12 RoundState.knockIn

/-- **C6 counterexample.** After the dealer auto-win at `c6State` the
dealer's recorded trick count is 3, not 0: `handleDealerAutoWin` sets
`dealer.tricksWon = 3` (so that the settlement pays the dealer the pot and
does not set them), while the claim says zero tricks are recorded. -/
theorem dealerAutoWin_tricks_counterexample :
    ((handleDealerAutoWin c6State).players.getD 0 default).tricksWon = 3
    ∧ ((handleDealerAutoWin c6State).players.getD 0 default).tricksWon ≠ 0 := by
  refine ⟨by decide, by decide⟩

/-- Sole remaining knocked-in non-dealer before the dealer's go-set. -/
def c7P : PlayerS :=
  { mkPlayer "p" 100 with
      knockedIn := true
      hand := [⟨Suit.spades, Value.v7⟩, ⟨Suit.hearts, Value.v8⟩, ⟨Suit.clubs, Value.v9⟩] }

/-- Dealer about to use the dealer-go-set intent. -/
def c7D : PlayerS :=
  { mkPlayer "d" 100 with
      knockedIn := true
      hand := [⟨Suit.spades, Value.v10⟩, ⟨Suit.hearts, Value.vJ⟩, ⟨Suit.clubs, Value.vQ⟩] }

/-- Discard-draw state with exactly one knocked-in non-dealer, pot 9¢. -/
def c7State : GState :=
  { mkState [c7P, c7D] "d" 9 RoundState.discardDraw with trumpSuit := some Suit.hearts }

/-- **C7 counterexample.** When the dealer passes via the dealer-go-set
intent at `c7State`, exactly one knocked-in non-dealer (`p`) remains — but
the code proceeds to trick play (`turns`, `p` to act) with `p` credited 0
tricks and no pot money, instead of the claimed auto-award of 3 tricks and
the full pot with no card played. -/
theorem dealerGoSet_sole_survivor_counterexample :
    (remainingKnockedIn (chargeDealerGoSet c7State)).length = 1
    ∧ (handleDealerGoSet c7State "d" true).roundState = RoundState.turns
    ∧ (handleDealerGoSet c7State "d" true).roundState ≠ RoundState.roundEnd
    ∧ ((handleDealerGoSet c7State "d" true).players.getD 0 default).tricksWon = 0
    ∧ ((handleDealerGoSet c7State "d" true).players.getD 0 default).money = 100
    ∧ (handleDealerGoSet c7State "d" true).currentTurnPlayerId = "p" := by
  refine ⟨by decide, by decide, by decide, by decide, by decide, by decide⟩

/-- Credited trick winnings of `awardTrickWinnings`: each knocked-in player
with tricks gets tricks × ⌊pot/3⌋. -/
def totalTrickPayout (st : GState) : Int :=
  (st.players.map (fun p =>
    if p.ready && p.knockedIn && p.tricksWon > 0 then
      (p.tricksWon : Int) * trickValue st.potValue
    else 0)).sum

/-- Winner of all 3 tricks. -/
def c3A : PlayerS := { mkPlayer "a" 100 with knockedIn := true, tricksWon := 3 }

/-- Knocked-in player with 0 tricks (goes set). -/
def c3B : PlayerS := { mkPlayer "b" 100 with knockedIn := true }

/-- Knocked-in dealer (kept no trump) with 0 tricks (goes set). -/
def c3D : PlayerS := { mkPlayer "d" 100 with knockedIn := true }

/-- End-of-tricks state: pot 9¢, trick distribution (3,0,0). -/
def c3State : GState := mkState [c3A, c3B, c3D] "d" 9 RoundState.turns

/-- **C3 counterexample.** At `c3State` (pot 9¢, tricks 3-0-0) the payout
is 9¢ and the recorded going-set carry-over is 18¢ (two single sets of the
pot, charged to the set players' balances): their sum is 27¢, not the
pre-payout pot of 9¢. -/
theorem potConservation_counterexample :
    totalTrickPayout c3State = 9
    ∧ (endRoundSync c3State).nextRoundPotBonus = 18
    ∧ c3State.potValue = 9
    ∧ totalTrickPayout c3State + (endRoundSync c3State).nextRoundPotBonus
        ≠ c3State.potValue := by
  refine ⟨by decide, by decide, by decide, by decide⟩

/-- Ready player with balance 0 (e.g. floored to 0 by a prior going-set). -/
def c10A : PlayerS := mkPlayer "a" 0

/-- Ready player. -/
def c10B : PlayerS := mkPlayer "b" 50

/-- Ready dealer. -/
def c10D : PlayerS := mkPlayer "d" 50

/-- Start-of-dealing state, antes 3¢, no carry-over. -/
def c10State : GState := mkState [c10A, c10B, c10D] "d" 0 RoundState.dealing

/-- Knocked-in player with balance 5¢ facing a 9¢ going-set penalty. -/
def c10FloorState : GState :=
  mkState [{ mkPlayer "a" 5 with knockedIn := true }] "d" 9 RoundState.roundEnd

/-- **C10.** Ante collection has no floor: at `c10State` player `a`
(balance 0¢ — reachable, since going-set flooring leaves a ready player at
exactly 0) is charged the 3¢ ante and ends at −3¢.  By contrast the
going-set penalty *is* floored: at `c10FloorState` a 9¢ penalty against a
5¢ balance leaves 0¢, not −4¢. -/
theorem ante_deduction_not_floored :
    ((startRoundAnte c10State).players.getD 0 default).money = -3
    ∧ ((startRoundAnte c10State).players.getD 0 default).money < 0
    ∧ ((calculateGoingSet c10FloorState).players.getD 0 default).wentSet = true
    ∧ ((calculateGoingSet c10FloorState).players.getD 0 default).money = 0 := by
  refine ⟨by decide, by decide, by decide, by decide⟩

/-! ### C2: going-set rules -/

/-- The claim's double-tier condition: the dealer kept a face-rank
(J/Q/K/A) trump. -/
def isDoubleTier (st : GState) (p : PlayerS) : Bool :=
  p.sessionId == st.dealerId && st.dealerKeptTrump &&
    (match st.dealerTrumpValue with
     | some v => isFaceValue v
     | none => false)

/-- Tricks needed to avoid going set: 2 on the double tier, else 1. -/
def requiredTricks (st : GState) (p : PlayerS) : Nat :=
  if isDoubleTier st p then 2 else 1

/-- The claim's penalty: 2 × pot on the double tier, else the pot. -/
def setPenalty (st : GState) (p : PlayerS) : Int :=
  if isDoubleTier st p then 2 * st.potValue else st.potValue

@[simp] lemma applySet_sessionId (p : PlayerS) (a : Int) (t : String) :
    (applySet p a t).sessionId = p.sessionId := rfl
@[simp] lemma applySet_ready (p : PlayerS) (a : Int) (t : String) :
    (applySet p a t).ready = p.ready := rfl
@[simp] lemma applySet_knockedIn (p : PlayerS) (a : Int) (t : String) :
    (applySet p a t).knockedIn = p.knockedIn := rfl
@[simp] lemma applySet_wentSet (p : PlayerS) (a : Int) (t : String) :
    (applySet p a t).wentSet = true := rfl
@[simp] lemma applySet_setAmount (p : PlayerS) (a : Int) (t : String) :
    (applySet p a t).setAmount = a := rfl
@[simp] lemma applySet_setType (p : PlayerS) (a : Int) (t : String) :
    (applySet p a t).setType = t := rfl
@[simp] lemma applySet_tricksWon (p : PlayerS) (a : Int) (t : String) :
    (applySet p a t).tricksWon = p.tricksWon := rfl
@[simp] lemma applySet_money (p : PlayerS) (a : Int) (t : String) :
    (applySet p a t).money = if p.money - a < 0 then 0 else p.money - a := rfl

/-- `goingSetUpdate` in the claim's terms: a knocked-in player below their
trick requirement is set with the tier's penalty; otherwise untouched. -/
lemma goingSetUpdate_eq (st : GState) (p : PlayerS)
    (h : (p.ready && p.knockedIn) = true) :
    goingSetUpdate st p =
      if p.tricksWon < requiredTricks st p then
        applySet p (setPenalty st p) (if isDoubleTier st p then "double" else "single")
      else p := by
  unfold goingSetUpdate requiredTricks setPenalty isDoubleTier
  rw [h]
  by_cases hd : (p.sessionId == st.dealerId && st.dealerKeptTrump) = true
  · cases hv : st.dealerTrumpValue with
    | none => simp [hd, hv]
    | some v =>
      by_cases hf : isFaceValue v = true
      · simp [hd, hv, hf]
      · have hf' : isFaceValue v = false := by simpa using hf
        simp [hd, hv, hf']
  · have hd' : (p.sessionId == st.dealerId && st.dealerKeptTrump) = false := by
      simpa using hd
    simp [hd']

/-- A player who is not ready-and-knocked-in is untouched. -/
lemma goingSetUpdate_not_ready (st : GState) (p : PlayerS)
    (h : (p.ready && p.knockedIn) = false) : goingSetUpdate st p = p := by
  unfold goingSetUpdate
  rw [h]
  simp

/-- Possible post-update set amounts: untouched (0), the pot, or twice. -/
lemma goingSetUpdate_setAmount_cases (st : GState) (p : PlayerS)
    (hp : p.setAmount = 0) :
    (goingSetUpdate st p).setAmount = 0
    ∨ (goingSetUpdate st p).setAmount = st.potValue
    ∨ (goingSetUpdate st p).setAmount = 2 * st.potValue := by
  by_cases h : (p.ready && p.knockedIn) = true
  · rw [goingSetUpdate_eq st p h]
    by_cases ht : p.tricksWon < requiredTricks st p
    · rw [if_pos ht, applySet_setAmount]
      unfold setPenalty
      split
      · right; right; rfl
      · right; left; rfl
    · rw [if_neg ht]
      left
      exact hp
  · rw [goingSetUpdate_not_ready st p (by simpa using h)]
    left
    exact hp

/-- A player marked set by the update owes the pot or twice the pot. -/
lemma goingSetUpdate_wentSet_amount (st : GState) (p : PlayerS)
    (hp : p.wentSet = false) :
    (goingSetUpdate st p).wentSet = true →
      ((goingSetUpdate st p).setAmount = st.potValue
       ∨ (goingSetUpdate st p).setAmount = 2 * st.potValue) := by
  by_cases h : (p.ready && p.knockedIn) = true
  · rw [goingSetUpdate_eq st p h]
    by_cases ht : p.tricksWon < requiredTricks st p
    · rw [if_pos ht]
      intro _
      rw [applySet_setAmount]
      unfold setPenalty
      split
      · right; rfl
      · left; rfl
    · rw [if_neg ht]
      intro hw
      rw [hp] at hw
      cases hw
  · rw [goingSetUpdate_not_ready st p (by simpa using h)]
    intro hw
    rw [hp] at hw
    cases hw

/-- `getD` through a player map. -/
lemma getD_map_players (l : List PlayerS) (f : PlayerS → PlayerS) (i : Nat)
    (hi : i < l.length) :
    (l.map f).getD i default = f (l.getD i default) := by
  rw [List.getD_eq_getElem?_getD, List.getElem?_map,
    List.getElem?_eq_getElem hi]
  rw [List.getD_eq_getElem l default hi]
  rfl

/-- The indexed player is a member of the list. -/
lemma getD_mem_players (l : List PlayerS) (i : Nat) (hi : i < l.length) :
    l.getD i default ∈ l := by
  rw [List.getD_eq_getElem l default hi]
  exact List.getElem_mem hi

/-- **C2.** After `calculateGoingSet`, the `i`-th knocked-in player: goes
set iff they won fewer tricks than their requirement (2 for a dealer who
kept a face trump, 1 otherwise); a set player's penalty is the tier's
amount (2 × pot double, pot single), their balance is floored at 0, and —
when the pot is positive — every set player's penalty is contained in the
recorded next-hand carry-over; a player who isn't set is untouched. -/
theorem goingSet_rules (st : GState) (i : Nat) (hi : i < st.players.length)
    (hclean : ∀ p ∈ st.players, p.wentSet = false ∧ p.setAmount = 0)
    (hready : ((st.players.getD i default).ready
      && (st.players.getD i default).knockedIn) = true) :
    (((calculateGoingSet st).players.getD i default).wentSet = true
        ↔ (st.players.getD i default).tricksWon
            < requiredTricks st (st.players.getD i default))
    ∧ (((calculateGoingSet st).players.getD i default).wentSet = true →
        ((calculateGoingSet st).players.getD i default).setAmount
            = setPenalty st (st.players.getD i default)
        ∧ ((calculateGoingSet st).players.getD i default).setType
            = (if isDoubleTier st (st.players.getD i default) then "double" else "single")
        ∧ ((calculateGoingSet st).players.getD i default).money
            = max 0 ((st.players.getD i default).money
                - setPenalty st (st.players.getD i default)))
    ∧ (((calculateGoingSet st).players.getD i default).wentSet = false →
        (calculateGoingSet st).players.getD i default = st.players.getD i default)
    ∧ (0 < st.potValue →
        ∀ q ∈ (calculateGoingSet st).players,
          (q.ready && q.knockedIn && q.wentSet) = true →
            q.setAmount ≤ (calculateGoingSet st).nextRoundPotBonus) := by
  set P := st.players.getD i default with hPdef
  have hmem : P ∈ st.players := getD_mem_players st.players i hi
  have hcl := hclean _ hmem
  have hmap : (calculateGoingSet st).players.getD i default = goingSetUpdate st P := by
    show ((st.players.map (goingSetUpdate st)).getD i default) = _
    rw [hPdef]
    exact getD_map_players st.players (goingSetUpdate st) i hi
  have hupd := goingSetUpdate_eq st P hready
  -- the first three conjuncts, by cases on the trick requirement
  refine ⟨?_, ?_, ?_, ?_⟩
  · rw [hmap, hupd]
    by_cases ht : P.tricksWon < requiredTricks st P
    · rw [if_pos ht, applySet_wentSet]
      simp [ht]
    · rw [if_neg ht, hcl.1]
      simp [ht]
  · rw [hmap, hupd]
    by_cases ht : P.tricksWon < requiredTricks st P
    · intro _
      rw [if_pos ht]
      refine ⟨applySet_setAmount _ _ _, applySet_setType _ _ _, ?_⟩
      rw [applySet_money]
      split <;> omega
    · intro hw
      rw [if_neg ht, hcl.1] at hw
      cases hw
  · rw [hmap, hupd]
    by_cases ht : P.tricksWon < requiredTricks st P
    · intro hw
      rw [if_pos ht, applySet_wentSet] at hw
      cases hw
    · rw [if_neg ht]
      intro _
      rfl
  · intro hpos q hq hqset
    -- q comes from some original player through `goingSetUpdate`
    have hqmem : q ∈ st.players.map (goingSetUpdate st) := hq
    obtain ⟨p0, hp0mem, hp0⟩ := List.mem_map.mp hqmem
    have hcl0 := hclean _ hp0mem
    -- every summand of the penalty total is non-negative
    have hterms : ∀ r ∈ (st.players.map (goingSetUpdate st)).map
        (fun p => if p.ready && p.knockedIn && p.wentSet then p.setAmount else 0),
        0 ≤ r := by
      intro r hr
      obtain ⟨q1, hq1mem, hq1⟩ := List.mem_map.mp hr
      obtain ⟨p1, hp1mem, hp1⟩ := List.mem_map.mp hq1mem
      have hcl1 := hclean _ hp1mem
      subst hq1
      by_cases hg : (q1.ready && q1.knockedIn && q1.wentSet) = true
      · rw [if_pos hg]
        subst hp1
        rcases goingSetUpdate_setAmount_cases st p1 hcl1.2 with h | h | h <;>
          rw [h] <;> omega
      · rw [if_neg hg]
    -- q's own summand equals its set amount and sits inside the total
    have hqterm : q.setAmount ∈ (st.players.map (goingSetUpdate st)).map
        (fun p => if p.ready && p.knockedIn && p.wentSet then p.setAmount else 0) := by
      have heq : (fun p : PlayerS =>
          if p.ready && p.knockedIn && p.wentSet then p.setAmount else 0) q
          = q.setAmount := by
        show (if (q.ready && q.knockedIn && q.wentSet) = true then q.setAmount else 0)
          = q.setAmount
        rw [if_pos hqset]
      rw [← heq]
      exact List.mem_map_of_mem _ hqmem
    have hle : q.setAmount ≤ setPenaltyTotal (st.players.map (goingSetUpdate st)) :=
      List.single_le_sum hterms _ hqterm
    -- q is set, so its positive penalty makes the total positive
    have hqamt : 0 < q.setAmount := by
      have hw : q.wentSet = true := by
        simp only [Bool.and_eq_true] at hqset
        exact hqset.2
      have hamt := goingSetUpdate_wentSet_amount st p0 hcl0.1 (by rw [hp0]; exact hw)
      rw [hp0] at hamt
      rcases hamt with h | h <;> omega
    have htotpos : 0 < setPenaltyTotal (st.players.map (goingSetUpdate st)) :=
      lt_of_lt_of_le hqamt hle
    show q.setAmount ≤ (calculateGoingSet st).nextRoundPotBonus
    unfold calculateGoingSet
    dsimp only
    rw [if_pos htotpos]
    exact hle

/-- Dealer who kept the K of trump and won only 1 of the 3 tricks. -/
def c2D : PlayerS := { mkPlayer "d" 100 with knockedIn := true, tricksWon := 1 }

/-- Knocked-in non-dealer who won 2 tricks. -/
def c2A : PlayerS := { mkPlayer "a" 100 with knockedIn := true, tricksWon := 2 }

/-- Hand end with a kept face trump (K♥), pot 9¢. -/
def c2State : GState :=
  { mkState [c2D, c2A] "d" 9 RoundState.roundEnd with
      dealerKeptTrump := true
      dealerTrumpValue := some Value.vK
      trumpSuit := some Suit.hearts }

/-- Witness for the going-set rules at `c2State`: the dealer (kept face
trump, 1 trick) goes set double for 2 × pot. -/
theorem goingSet_rules_witness :
    ((calculateGoingSet c2State).players.getD 0 default).wentSet = true
    ∧ ((calculateGoingSet c2State).players.getD 0 default).setAmount
        = setPenalty c2State (c2State.players.getD 0 default)
    ∧ ((calculateGoingSet c2State).players.getD 0 default).setType = "double" := by
  have h := goingSet_rules c2State 0 (by decide) (by decide) (by decide)
  have hw : ((calculateGoingSet c2State).players.getD 0 default).wentSet = true :=
    h.1.mpr (by decide)
  refine ⟨hw, (h.2.1 hw).1, ?_⟩
  have hty := (h.2.1 hw).2.1
  rw [hty]
  decide

/-! ### C3: settlement accounting -/

/-- Tricks held by knocked-in players. -/
def knockedInTrickSum (st : GState) : Int :=
  (st.players.map (fun p => if p.ready && p.knockedIn then (p.tricksWon : Int) else 0)).sum

/-- Total balance of the players. -/
def moneyTotal (ps : List PlayerS) : Int :=
  (ps.map (fun p => p.money)).sum

/-- The award sum factors as (knocked-in trick total) × trick value when
players outside the hand hold no tricks. -/
lemma payout_factor (l : List PlayerS) (v : Int)
    (h0 : ∀ p ∈ l, (p.ready && p.knockedIn) = false → p.tricksWon = 0) :
    (l.map (fun p => if p.ready && p.knockedIn && p.tricksWon > 0 then
        (p.tricksWon : Int) * v else 0)).sum
      = (l.map (fun p => if p.ready && p.knockedIn then (p.tricksWon : Int) else 0)).sum * v := by
  induction l with
  | nil => simp
  | cons p ps ih =>
    have hh := h0 p (by simp)
    have ih' := ih (fun q hq => h0 q (by simp [hq]))
    simp only [List.map_cons, List.sum_cons, add_mul, ih']
    congr 1
    by_cases hr : (p.ready && p.knockedIn) = true
    · by_cases ht : 0 < p.tricksWon
      · simp [hr, ht]
      · have ht0 : p.tricksWon = 0 := by omega
        simp [hr, ht, ht0]
    · have hr' : (p.ready && p.knockedIn) = false := by simpa using hr
      simp [hr', hh hr']

/-- `goingSetUpdate` preserves identity, flags and trick counts. -/
lemma goingSetUpdate_flags (st : GState) (p : PlayerS) :
    (goingSetUpdate st p).ready = p.ready
    ∧ (goingSetUpdate st p).knockedIn = p.knockedIn
    ∧ (goingSetUpdate st p).sessionId = p.sessionId
    ∧ (goingSetUpdate st p).tricksWon = p.tricksWon := by
  by_cases h : (p.ready && p.knockedIn) = true
  · rw [goingSetUpdate_eq st p h]
    split
    · exact ⟨rfl, rfl, rfl, rfl⟩
    · exact ⟨rfl, rfl, rfl, rfl⟩
  · rw [goingSetUpdate_not_ready st p (by simpa using h)]
    exact ⟨rfl, rfl, rfl, rfl⟩

/-- `awardTrickWinnings` leaves set bookkeeping untouched, so the penalty
total is unchanged. -/
lemma setPenaltyTotal_award (st : GState) :
    setPenaltyTotal (awardTrickWinnings st).players = setPenaltyTotal st.players := by
  unfold awardTrickWinnings setPenaltyTotal
  dsimp only
  rw [List.map_map]
  congr 1
  apply List.map_congr_left
  intro p _
  dsimp only [Function.comp]
  by_cases hr : (p.ready && p.knockedIn) = true
  · by_cases ht : 0 < p.tricksWon
    · by_cases hw : p.wentSet = true
      · simp [awardUpd, hr, ht, hw]
      · simp [awardUpd, hr, ht, hw]
    · by_cases hw : p.wentSet = true
      · simp [awardUpd, hr, ht, hw]
      · simp [awardUpd, hr, ht, hw]
  · have hr' : (p.ready && p.knockedIn) = false := by simpa using hr
    simp [awardUpd, hr']

/-- The penalty total after `goingSetUpdate` is non-negative. -/
lemma setPenaltyTotal_nonneg_after (st : GState)
    (hclean : ∀ p ∈ st.players, p.setAmount = 0) (hpot : 0 ≤ st.potValue) :
    0 ≤ setPenaltyTotal (st.players.map (goingSetUpdate st)) := by
  unfold setPenaltyTotal
  apply List.sum_nonneg
  intro r hr
  obtain ⟨q1, hq1mem, hq1⟩ := List.mem_map.mp hr
  obtain ⟨p1, hp1mem, hp1⟩ := List.mem_map.mp hq1mem
  subst hq1
  by_cases hg : (q1.ready && q1.knockedIn && q1.wentSet) = true
  · rw [if_pos hg]
    subst hp1
    rcases goingSetUpdate_setAmount_cases st p1 (hclean _ hp1mem) with h | h | h <;>
      rw [h] <;> omega
  · rw [if_neg hg]

/-- Mapping a per-player credit over the list adds the credits to the
balance total. -/
lemma moneyTotal_map_add (l : List PlayerS) (g : PlayerS → PlayerS)
    (t : PlayerS → Int) (hg : ∀ p ∈ l, (g p).money = p.money + t p) :
    moneyTotal (l.map g) = moneyTotal l + (l.map t).sum := by
  induction l with
  | nil => simp [moneyTotal]
  | cons p ps ih =>
    have hp := hg p (by simp)
    have ih' := ih (fun q hq => hg q (by simp [hq]))
    unfold moneyTotal at ih' ⊢
    simp only [List.map_cons, List.sum_cons, hp, ih']
    ring

/-- `awardTrickWinnings` adds exactly the per-player trick credits to the
balance total. -/
lemma moneyTotal_award (st : GState) :
    moneyTotal (awardTrickWinnings st).players
      = moneyTotal st.players
        + (st.players.map (fun p => if p.ready && p.knockedIn && p.tricksWon > 0 then
            (p.tricksWon : Int) * trickValue st.potValue else 0)).sum := by
  unfold awardTrickWinnings
  dsimp only
  apply moneyTotal_map_add
  intro p _
  by_cases hr : (p.ready && p.knockedIn) = true
  · by_cases ht : 0 < p.tricksWon
    · by_cases hw : p.wentSet = true <;> simp [awardUpd, hr, ht, hw]
    · by_cases hw : p.wentSet = true <;> simp [awardUpd, hr, ht, hw]
  · have hr' : (p.ready && p.knockedIn) = false := by simpa using hr
    simp [awardUpd, hr']

/-- The trick-credit sum is unchanged by `calculateGoingSet` (it preserves
flags, trick counts and the pot). -/
lemma payout_term_sum_calc (st : GState) :
    ((calculateGoingSet st).players.map (fun p =>
        if p.ready && p.knockedIn && p.tricksWon > 0 then
          (p.tricksWon : Int) * trickValue (calculateGoingSet st).potValue else 0)).sum
      = (st.players.map (fun p => if p.ready && p.knockedIn && p.tricksWon > 0 then
          (p.tricksWon : Int) * trickValue st.potValue else 0)).sum := by
  have hpot : (calculateGoingSet st).potValue = st.potValue := rfl
  rw [hpot]
  show ((st.players.map (goingSetUpdate st)).map _).sum = _
  rw [List.map_map]
  congr 1
  apply List.map_congr_left
  intro p _
  dsimp only [Function.comp]
  obtain ⟨h1, h2, _, h4⟩ := goingSetUpdate_flags st p
  rw [h1, h2, h4]

/-- **C3 (amended).** Settlement accounting for any distribution of the 3
tricks among the knocked-in players (pre-settlement state: set fields
reset, no pending carry-over, non-negative pot): the total trick payout is
pot − pot mod 3 (the full pot whenever 3 ∣ pot, as in all reachable
games); `awardTrickWinnings` adds exactly that amount to the players'
balances on top of the going-set deductions; the recorded next-hand
carry-over equals the total of the going-set penalties; and — when
3 ∣ pot — payout + carry-over equals the pre-payout pot iff no penalty was
charged. -/
theorem settlement_accounting (st : GState)
    (h0 : ∀ p ∈ st.players, (p.ready && p.knockedIn) = false → p.tricksWon = 0)
    (h3 : knockedInTrickSum st = 3)
    (hclean : ∀ p ∈ st.players, p.wentSet = false ∧ p.setAmount = 0)
    (hb : st.nextRoundPotBonus = 0)
    (hpot : 0 ≤ st.potValue) :
    totalTrickPayout st = st.potValue - st.potValue % 3
    ∧ moneyTotal (endRoundSync st).players
        = moneyTotal (calculateGoingSet
            { st with roundState := RoundState.roundEnd }).players
          + totalTrickPayout st
    ∧ (endRoundSync st).nextRoundPotBonus = setPenaltyTotal (endRoundSync st).players
    ∧ ((3:Int) ∣ st.potValue →
        (totalTrickPayout st + (endRoundSync st).nextRoundPotBonus = st.potValue
          ↔ setPenaltyTotal (endRoundSync st).players = 0)) := by
  have hP1 : totalTrickPayout st = st.potValue - st.potValue % 3 := by
    unfold totalTrickPayout
    rw [payout_factor st.players (trickValue st.potValue) h0]
    unfold knockedInTrickSum at h3
    rw [h3]
    unfold trickValue
    rw [Int.fdiv_eq_ediv _ (by norm_num)]
    omega
  have hP2 : moneyTotal (endRoundSync st).players
      = moneyTotal (calculateGoingSet
          { st with roundState := RoundState.roundEnd }).players
        + totalTrickPayout st := by
    show moneyTotal (awardTrickWinnings (calculateGoingSet
        { st with roundState := RoundState.roundEnd })).players = _
    rw [moneyTotal_award, payout_term_sum_calc]
    rfl
  have hbonusT : (calculateGoingSet
      { st with roundState := RoundState.roundEnd }).nextRoundPotBonus
      = setPenaltyTotal (calculateGoingSet
          { st with roundState := RoundState.roundEnd }).players := by
    by_cases hT : setPenaltyTotal
        (({ st with roundState := RoundState.roundEnd } : GState).players.map
          (goingSetUpdate { st with roundState := RoundState.roundEnd })) > 0
    · show (if _ > 0 then _ else _) = _
      rw [if_pos hT]
      rfl
    · show (if _ > 0 then _ else _) = _
      rw [if_neg hT]
      have hnn := setPenaltyTotal_nonneg_after
        ({ st with roundState := RoundState.roundEnd } : GState)
        (fun p hp => (hclean p hp).2) hpot
      have hz : setPenaltyTotal
          (({ st with roundState := RoundState.roundEnd } : GState).players.map
            (goingSetUpdate { st with roundState := RoundState.roundEnd })) = 0 := by
        omega
      show st.nextRoundPotBonus = setPenaltyTotal
          (({ st with roundState := RoundState.roundEnd } : GState).players.map
            (goingSetUpdate { st with roundState := RoundState.roundEnd }))
      omega
  have hP3 : (endRoundSync st).nextRoundPotBonus
      = setPenaltyTotal (endRoundSync st).players := by
    show (awardTrickWinnings (calculateGoingSet
        { st with roundState := RoundState.roundEnd })).nextRoundPotBonus
      = setPenaltyTotal (awardTrickWinnings (calculateGoingSet
          { st with roundState := RoundState.roundEnd })).players
    rw [setPenaltyTotal_award]
    exact hbonusT
  refine ⟨hP1, hP2, hP3, ?_⟩
  intro hdvd
  have hmod : st.potValue % 3 = 0 := Int.emod_eq_zero_of_dvd hdvd
  rw [hP1, hP3]
  omega

/-- Witness for the settlement accounting at `c3State` (pot 9¢, tricks
3-0-0). -/
theorem settlement_accounting_witness :
    knockedInTrickSum c3State = 3
    ∧ totalTrickPayout c3State = c3State.potValue - c3State.potValue % 3 := by
  have h := settlement_accounting c3State (by decide) (by decide) (by decide)
    (by decide) (by decide)
  exact ⟨by decide, h.1⟩

/-! ### C4: ante collection -/

/-- Sum of the ready players' chosen antes. -/
def readyBetSum (st : GState) : Int :=
  (st.players.map (fun p => if p.ready then p.bet else 0)).sum

/-- Without a carry-over, the collected antes are the ready players' bets
plus the 3¢ surcharge per ready dealer. -/
lemma ante_sum_no_bonus (l : List PlayerS) (st : GState)
    (hb : st.nextRoundPotBonus = 0) :
    (l.map (fun p => if p.ready && shouldPayAnte st p then anteAmountFor st p else 0)).sum
      = (l.map (fun p => if p.ready then p.bet else 0)).sum
        + 3 * ((l.filter (fun p => p.ready && p.sessionId == st.dealerId)).length : Int) := by
  induction l with
  | nil => simp
  | cons p ps ih =>
    simp only [List.map_cons, List.sum_cons, List.filter_cons]
    rw [ih]
    have hhead : (if (p.ready && shouldPayAnte st p) = true then anteAmountFor st p else 0)
        = (if p.ready = true then p.bet else 0)
          + (if (p.ready && (p.sessionId == st.dealerId)) = true then 3 else 0) := by
      unfold shouldPayAnte anteAmountFor dealerExtraAnte
      by_cases hr : p.ready = true
      · by_cases hd : (p.sessionId == st.dealerId) = true
        · simp [hr, hd, hb]
        · simp [hr, hd, hb]
      · have hr' : p.ready = false := by simpa using hr
        simp [hr', hb]
    rw [hhead]
    by_cases hf : (p.ready && (p.sessionId == st.dealerId)) = true
    · rw [if_pos hf, if_pos hf, List.length_cons]
      push_cast
      ring
    · rw [if_neg hf, if_neg hf]
      ring

/-- With a carry-over pending, only the ready dealer pays, 3¢. -/
lemma ante_sum_with_bonus (l : List PlayerS) (st : GState)
    (hb : 0 < st.nextRoundPotBonus) :
    (l.map (fun p => if p.ready && shouldPayAnte st p then anteAmountFor st p else 0)).sum
      = 3 * ((l.filter (fun p => p.ready && p.sessionId == st.dealerId)).length : Int) := by
  induction l with
  | nil => simp
  | cons p ps ih =>
    simp only [List.map_cons, List.sum_cons, List.filter_cons]
    rw [ih]
    have hhead : (if (p.ready && shouldPayAnte st p) = true then anteAmountFor st p else 0)
        = (if (p.ready && (p.sessionId == st.dealerId)) = true then 3 else 0) := by
      unfold shouldPayAnte anteAmountFor dealerExtraAnte
      by_cases hr : p.ready = true
      · by_cases hd : (p.sessionId == st.dealerId) = true
        · simp [hr, hd, hb]
        · simp [hr, hd, hb]
      · have hr' : p.ready = false := by simpa using hr
        simp [hr', hb]
    rw [hhead]
    by_cases hf : (p.ready && (p.sessionId == st.dealerId)) = true
    · rw [if_pos hf, if_pos hf, List.length_cons]
      push_cast
      ring
    · rw [if_neg hf, if_neg hf]
      ring

/-- **C4.** Ante collection at dealing (for a state whose ready players
include the dealer exactly once): with no carry-over, every ready player
pays their chosen ante and the dealer additionally the 3¢ surcharge, the
pot grows by the sum of ready antes plus 3¢; with a carry-over pending,
only the dealer pays (3¢, the surcharge only), every other ready player
pays nothing, and once dealing completes the carry-over joins the pot and
the stored bonus is cleared. -/
theorem ante_collection (st : GState)
    (hcount : (st.players.filter
      (fun p => p.ready && p.sessionId == st.dealerId)).length = 1) :
    (st.nextRoundPotBonus = 0 →
      (∀ i, i < st.players.length →
        ((startRoundAnte st).players.getD i default).money
          = (st.players.getD i default).money
            - (if (st.players.getD i default).ready then
                 (st.players.getD i default).bet
                 + (if (st.players.getD i default).sessionId == st.dealerId
                    then 3 else 0)
               else 0))
      ∧ (startRoundAnte st).potValue = st.potValue + readyBetSum st + 3
      ∧ (startRoundAnte st).nextRoundPotBonus = 0)
    ∧ (0 < st.nextRoundPotBonus →
      (∀ i, i < st.players.length →
        ((startRoundAnte st).players.getD i default).money
          = (st.players.getD i default).money
            - (if ((st.players.getD i default).ready
                  && (st.players.getD i default).sessionId == st.dealerId)
               then 3 else 0))
      ∧ (startRoundAnte st).potValue = st.potValue + 3 + st.nextRoundPotBonus
      ∧ (startRoundAnte st).nextRoundPotBonus = 0) := by
  constructor
  · intro hb
    have hid : startRoundAnte st = collectAntes st := by
      unfold startRoundAnte applyCarryOverBonus
      have hcb : (collectAntes st).nextRoundPotBonus = st.nextRoundPotBonus := rfl
      rw [hcb, hb]
      simp
    refine ⟨?_, ?_, ?_⟩
    · intro i hi
      rw [hid]
      set P := st.players.getD i default with hP
      have hmap : (collectAntes st).players.getD i default
          = (fun p : PlayerS =>
              if p.ready && shouldPayAnte st p then
                { p with money := p.money - anteAmountFor st p }
              else p) P := by
        rw [hP]
        exact getD_map_players st.players _ i hi
      rw [hmap]
      unfold shouldPayAnte anteAmountFor dealerExtraAnte
      by_cases hr : P.ready = true
      · by_cases hd : (P.sessionId == st.dealerId) = true
        · simp [hr, hd, hb]
        · simp [hr, hd, hb]
      · have hr' : P.ready = false := by simpa using hr
        simp [hr', hb]
    · rw [hid]
      show st.potValue + _ = _
      rw [ante_sum_no_bonus st.players st hb, hcount]
      unfold readyBetSum
      push_cast
      ring
    · rw [hid]
      exact hb
  · intro hb
    have hcb : (collectAntes st).nextRoundPotBonus = st.nextRoundPotBonus := rfl
    have hfire : startRoundAnte st
        = { collectAntes st with
              potValue := (collectAntes st).potValue + st.nextRoundPotBonus,
              nextRoundPotBonus := 0 } := by
      unfold startRoundAnte applyCarryOverBonus
      rw [hcb]
      simp [hb]
    refine ⟨?_, ?_, ?_⟩
    · intro i hi
      rw [hfire]
      set P := st.players.getD i default with hP
      have hmap : (collectAntes st).players.getD i default
          = (fun p : PlayerS =>
              if p.ready && shouldPayAnte st p then
                { p with money := p.money - anteAmountFor st p }
              else p) P := by
        rw [hP]
        exact getD_map_players st.players _ i hi
      show ((collectAntes st).players.getD i default).money = _
      rw [hmap]
      unfold shouldPayAnte anteAmountFor dealerExtraAnte
      by_cases hr : P.ready = true
      · by_cases hd : (P.sessionId == st.dealerId) = true
        · simp [hr, hd, hb]
        · simp [hr, hd, hb]
      · have hr' : P.ready = false := by simpa using hr
        simp [hr', hb]
    · rw [hfire]
      show (collectAntes st).potValue + st.nextRoundPotBonus = _
      have : (collectAntes st).potValue = st.potValue
          + (st.players.map (fun p =>
              if p.ready && shouldPayAnte st p then anteAmountFor st p else 0)).sum := rfl
      rw [this, ante_sum_with_bonus st.players st hb, hcount]
      push_cast
      ring
    · rw [hfire]

/-- Dealing state without carry-over: players a, b and dealer d, antes 3¢. -/
def c4StateA : GState :=
  mkState [mkPlayer "a" 100, mkPlayer "b" 100, mkPlayer "d" 100] "d" 0 RoundState.dealing

/-- Dealing state with a 9¢ carry-over pending. -/
def c4StateB : GState :=
  { mkState [mkPlayer "a" 100, mkPlayer "b" 100, mkPlayer "d" 100] "d" 0
      RoundState.dealing with nextRoundPotBonus := 9 }

/-- Witness for the ante collection: without carry-over the pot grows by
the antes + surcharge; with carry-over by surcharge + carry-over. -/
theorem ante_collection_witness :
    (startRoundAnte c4StateA).potValue
      = c4StateA.potValue + readyBetSum c4StateA + 3
    ∧ (startRoundAnte c4StateB).potValue
      = c4StateB.potValue + 3 + c4StateB.nextRoundPotBonus := by
  have hA := ante_collection c4StateA (by decide)
  have hB := ante_collection c4StateB (by decide)
  exact ⟨(hA.1 (by decide)).2.1, (hB.2 (by decide)).2.1⟩

/-! ### C6: dealer auto-win -/

/-- `players.get(id)` through a session-preserving map. -/
lemma findPlayer_map (ps : List PlayerS) (pid : String) (g : PlayerS → PlayerS)
    (hg : ∀ p, (g p).sessionId = p.sessionId) :
    findPlayer (ps.map g) pid = (findPlayer ps pid).map g := by
  induction ps with
  | nil => rfl
  | cons p ps ih =>
    unfold findPlayer at ih ⊢
    by_cases h : (p.sessionId == pid) = true
    · rw [List.map_cons, List.find?_cons_of_pos, List.find?_cons_of_pos]
      · rfl
      · exact h
      · show ((g p).sessionId == pid) = true
        rw [hg p]
        exact h
    · have h' : (p.sessionId == pid) = false := by simpa using h
      rw [List.map_cons, List.find?_cons_of_neg, List.find?_cons_of_neg]
      · exact ih
      · exact by simpa using h
      · show ¬ ((g p).sessionId == pid) = true
        rw [hg p]
        simp [h']

/-- `players.get(id)` after mutating the player with that id in place. -/
lemma findPlayer_updatePlayer (ps : List PlayerS) (pid : String)
    (f : PlayerS → PlayerS) (hf : ∀ p, (f p).sessionId = p.sessionId) :
    findPlayer (updatePlayer ps pid f) pid = (findPlayer ps pid).map f := by
  induction ps with
  | nil => rfl
  | cons p ps ih =>
    unfold findPlayer updatePlayer at ih ⊢
    by_cases h : (p.sessionId == pid) = true
    · rw [List.map_cons, if_pos h, List.find?_cons_of_pos, List.find?_cons_of_pos]
      · rfl
      · exact h
      · show ((f p).sessionId == pid) = true
        rw [hf p]
        exact h
    · have h' : (p.sessionId == pid) = false := by simpa using h
      rw [List.map_cons, if_neg h, List.find?_cons_of_neg, List.find?_cons_of_neg]
      · exact ih
      · exact by simpa using h
      · exact by simpa using h

lemma awardUpd_sessionId (v : Int) (p : PlayerS) :
    (awardUpd v p).sessionId = p.sessionId := by
  unfold awardUpd
  by_cases hr : (p.ready && p.knockedIn) = true
  · by_cases ht : 0 < p.tricksWon
    · by_cases hw : p.wentSet = true <;> simp [hr, ht, hw]
    · by_cases hw : p.wentSet = true <;> simp [hr, ht, hw]
  · have hr' : (p.ready && p.knockedIn) = false := by simpa using hr
    simp [hr']

/-- The trick requirement is never more than 2. -/
lemma requiredTricks_le_two (st : GState) (p : PlayerS) :
    requiredTricks st p ≤ 2 := by
  unfold requiredTricks
  split <;> omega

/-- 3 × ⌊pot/3⌋ recovers the pot when 3 divides it. -/
lemma three_mul_trickValue (pot : Int) (h : (3:Int) ∣ pot) :
    3 * trickValue pot = pot := by
  unfold trickValue
  rw [Int.fdiv_eq_ediv _ (by norm_num)]
  have := Int.emod_eq_zero_of_dvd h
  omega

/-- `players.get(id)` through `endRoundSync`: the settlement applies
`goingSetUpdate` then `awardUpd` to the found player. -/
lemma findPlayer_endRoundSync (st : GState) (pid : String) :
    findPlayer (endRoundSync st).players pid
      = (findPlayer st.players pid).map
          (fun p => awardUpd (trickValue st.potValue)
            (goingSetUpdate { st with roundState := RoundState.roundEnd } p)) := by
  show findPlayer ((({ st with roundState := RoundState.roundEnd } : GState).players.map
      (goingSetUpdate { st with roundState := RoundState.roundEnd })).map
        (awardUpd (trickValue st.potValue))) pid = _
  rw [findPlayer_map _ _ _ (fun p => awardUpd_sessionId _ p),
      findPlayer_map _ _ _ (fun p => (goingSetUpdate_flags _ p).2.2.1)]
  rw [Option.map_map]
  rfl

/-- **C6 (amended).** When all non-dealers have passed (none ready) and the
dealer auto-win fires: the hand jumps to the end phase; no completed trick
is recorded; the dealer — via `awardTrickWinnings` paying 3 × ⌊pot/3⌋, the
full pot since reachable pots are divisible by 3 — is credited the full
pot, marked the winner, and their `tricksWon` counter reads 3 (not 0); all
other players are untouched by the settlement. -/
theorem dealerAutoWin_amended (st : GState) (d : PlayerS)
    (hfind : findPlayer st.players st.dealerId = some d)
    (hready : d.ready = true)
    (hdw : d.wentSet = false)
    (hdvd : (3:Int) ∣ st.potValue)
    (hothers : ∀ p ∈ st.players, (p.sessionId == st.dealerId) = false → p.ready = false) :
    (handleDealerAutoWin st).roundState = RoundState.roundEnd
    ∧ (handleDealerAutoWin st).completedTricks = st.completedTricks
    ∧ findPlayer (handleDealerAutoWin st).players st.dealerId
        = some { d with knockedIn := true, hasKnockDecision := true, tricksWon := 3,
                        money := d.money + st.potValue, roundOutcome := "win" }
    ∧ (∀ i, i < st.players.length →
        ((st.players.getD i default).sessionId == st.dealerId) = false →
        (handleDealerAutoWin st).players.getD i default = st.players.getD i default) := by
  unfold handleDealerAutoWin
  rw [hfind]
  refine ⟨rfl, rfl, ?_, ?_⟩
  · rw [findPlayer_endRoundSync]
    have h1 : findPlayer ({ st with
        specialRoundOutcome := "dealer-auto-win",
        players := updatePlayer st.players st.dealerId autoWinUpd } : GState).players
          st.dealerId = some (autoWinUpd d) := by
      show findPlayer (updatePlayer st.players st.dealerId autoWinUpd) st.dealerId = _
      rw [findPlayer_updatePlayer st.players st.dealerId autoWinUpd (fun p => rfl), hfind]
      rfl
    rw [h1]
    have hr : ((autoWinUpd d).ready && (autoWinUpd d).knockedIn) = true := by
      show (d.ready && true) = true
      rw [hready]
      rfl
    have hg : goingSetUpdate { st with
        specialRoundOutcome := "dealer-auto-win",
        players := updatePlayer st.players st.dealerId autoWinUpd,
        roundState := RoundState.roundEnd } (autoWinUpd d) = autoWinUpd d := by
      rw [goingSetUpdate_eq _ _ hr]
      apply if_neg
      intro hc
      exact absurd (Nat.lt_of_lt_of_le hc (requiredTricks_le_two _ _))
        (by show ¬ (3 < 2); decide)
    show some (awardUpd (trickValue st.potValue)
        (goingSetUpdate _ (autoWinUpd d))) = _
    rw [hg]
    unfold awardUpd
    rw [if_pos hr]
    rw [if_pos (by show (0:Nat) < 3; decide : (autoWinUpd d).tricksWon > 0)]
    have hws : (autoWinUpd d).wentSet = false := hdw
    rw [if_neg (by rw [hws]; simp : ¬ (autoWinUpd d).wentSet = true)]
    have hmoney : (autoWinUpd d).money + ((autoWinUpd d).tricksWon : Int)
        * trickValue st.potValue = d.money + st.potValue := by
      show d.money + ((3:Nat) : Int) * trickValue st.potValue = d.money + st.potValue
      rw [show ((3:Nat) : Int) = (3:Int) from rfl, three_mul_trickValue st.potValue hdvd]
    rw [Option.some.injEq]
    show { autoWinUpd d with
        money := (autoWinUpd d).money + ((autoWinUpd d).tricksWon : Int)
          * trickValue st.potValue,
        roundOutcome := "win" } = _
    rw [hmoney]
    rfl
  · intro i hi hnd
    have hmem := getD_mem_players st.players i hi
    have hpr : (st.players.getD i default).ready = false := hothers _ hmem hnd
    have e1 : (endRoundSync ({ st with
        specialRoundOutcome := "dealer-auto-win",
        players := updatePlayer st.players st.dealerId autoWinUpd } : GState)).players.getD
          i default
        = awardUpd (trickValue st.potValue)
            (goingSetUpdate { st with
                specialRoundOutcome := "dealer-auto-win",
                players := updatePlayer st.players st.dealerId autoWinUpd,
                roundState := RoundState.roundEnd }
              ((fun p => if p.sessionId == st.dealerId then autoWinUpd p else p)
                (st.players.getD i default))) := by
      show (((st.players.map
          (fun p => if p.sessionId == st.dealerId then autoWinUpd p else p)).map
            (goingSetUpdate _)).map (awardUpd (trickValue st.potValue))).getD i default = _
      rw [getD_map_players _ _ i (by simpa using hi),
          getD_map_players _ _ i (by simpa using hi),
          getD_map_players _ _ i hi]
    rw [e1]
    have hu : (fun p : PlayerS => if p.sessionId == st.dealerId then autoWinUpd p else p)
        (st.players.getD i default) = st.players.getD i default := by
      show (if (st.players.getD i default).sessionId == st.dealerId then _ else _) = _
      rw [hnd]
      simp
    rw [hu]
    have hg := goingSetUpdate_not_ready ({ st with
        specialRoundOutcome := "dealer-auto-win",
        players := updatePlayer st.players st.dealerId autoWinUpd,
        roundState := RoundState.roundEnd } : GState) (st.players.getD i default)
      (by rw [hpr]; rfl)
    rw [hg]
    unfold awardUpd
    rw [if_neg (by rw [hpr]; simp)]

/-- Witness for the amended C6 theorem at `c6State` (pot 12¢, both
non-dealers passed): the phase jumps to `roundEnd`, the dealer ends at
112¢ with `tricksWon = 3` and outcome `"win"`, and the two passers are
unchanged. -/
theorem dealerAutoWin_amended_witness :
    (handleDealerAutoWin c6State).roundState = RoundState.roundEnd
    ∧ (handleDealerAutoWin c6State).completedTricks = []
    ∧ findPlayer (handleDealerAutoWin c6State).players c6State.dealerId
        = some { c6D with knockedIn := true, hasKnockDecision := true, tricksWon := 3,
                          money := c6D.money + c6State.potValue, roundOutcome := "win" }
    ∧ (handleDealerAutoWin c6State).players.getD 1 default = c6B := by
  have h := dealerAutoWin_amended c6State c6D rfl rfl rfl ⟨4, rfl⟩
    (by
      intro p hp hnd
      fin_cases hp <;> first | rfl | exact absurd hnd (by decide))
  exact ⟨h.1, h.2.1, h.2.2.1, h.2.2.2 1 (by decide) (by decide)⟩

/-- **C7 (amended).** A dealer pass is always a single-tier penalty equal
to the pot — never double, even with a kept face trump — charged floored
into the dealer's balance and added to the carry-over, in both the
knock-decision path and the dealer-go-set path.  At the knock decision the
branches match the claim: zero remaining knocked-in players end the hand;
exactly one ends the hand with that player credited 3 tricks and the full
pot; two or more proceed to trick play.  The dealer-go-set intent, however,
only distinguishes zero from nonzero: with zero remaining the hand ends,
and with one or more (no special hand) it proceeds to trick play — a sole
survivor receives no auto-award, the players leaving the charge unchanged. -/
theorem dealerPass_amended :
    (∀ st d, findPlayer st.players st.dealerId = some d →
      findPlayer (chargeDealerSingle st).players st.dealerId
        = some { d with wentSet := true, setType := "single", setAmount := st.potValue,
                        money := if d.money - st.potValue < 0 then 0
                                 else d.money - st.potValue }
      ∧ (chargeDealerSingle st).nextRoundPotBonus
          = st.nextRoundPotBonus + st.potValue)
    ∧ (∀ st d, findPlayer st.players st.dealerId = some d →
      findPlayer (chargeDealerGoSet st).players st.dealerId
        = some { d with knockedIn := false, hasKnockDecision := true, ready := false,
                        wentSet := true, setType := "single", setAmount := st.potValue,
                        money := if d.money - st.potValue < 0 then 0
                                 else d.money - st.potValue }
      ∧ (chargeDealerGoSet st).nextRoundPotBonus
          = st.nextRoundPotBonus + st.potValue)
    ∧ (∀ st, (remainingKnockedIn (chargeDealerSingle st)).length = 0 →
        (dealerPassAtKnock st).roundState = RoundState.roundEnd)
    ∧ (∀ st, (remainingKnockedIn (chargeDealerSingle st)).length = 1 →
        (dealerPassAtKnock st).roundState = RoundState.roundEnd
        ∧ ∀ i, i < (chargeDealerSingle st).players.length →
            (((chargeDealerSingle st).players.getD i default).ready
              && ((chargeDealerSingle st).players.getD i default).knockedIn) = true →
            (dealerPassAtKnock st).players.getD i default
              = { (chargeDealerSingle st).players.getD i default with
                    tricksWon := 3
                    money := ((chargeDealerSingle st).players.getD i default).money
                      + st.potValue
                    roundOutcome := "win" })
    ∧ (∀ st, 2 ≤ (remainingKnockedIn (chargeDealerSingle st)).length →
        bestSpecialHand (chargeDealerSingle st) = none →
        (dealerPassAtKnock st).roundState = RoundState.turns)
    ∧ (∀ st d, st.roundState = RoundState.discardDraw →
        findPlayer st.players st.dealerId = some d →
        ((remainingKnockedIn (chargeDealerGoSet st)).length = 0 →
          handleDealerGoSet st st.dealerId true
            = endRoundWithoutTricksSync (chargeDealerGoSet st))
        ∧ (1 ≤ (remainingKnockedIn (chargeDealerGoSet st)).length →
            bestSpecialHand (chargeDealerGoSet st) = none →
            (handleDealerGoSet st st.dealerId true).roundState = RoundState.turns
            ∧ (handleDealerGoSet st st.dealerId true).players
                = (chargeDealerGoSet st).players)) := by
  refine ⟨?_, ?_, ?_, ?_, ?_, ?_⟩
  · intro st d hfind
    refine ⟨?_, rfl⟩
    have hfp := findPlayer_updatePlayer st.players st.dealerId (fun p =>
        { p with wentSet := true, setType := "single", setAmount := st.potValue,
                 money := if p.money - st.potValue < 0 then 0
                          else p.money - st.potValue }) (fun p => rfl)
    show findPlayer (updatePlayer st.players st.dealerId (fun p =>
        { p with wentSet := true, setType := "single", setAmount := st.potValue,
                 money := if p.money - st.potValue < 0 then 0
                          else p.money - st.potValue })) st.dealerId = _
    rw [hfp, hfind]
    rfl
  · intro st d hfind
    refine ⟨?_, rfl⟩
    have hfp := findPlayer_updatePlayer st.players st.dealerId (fun p =>
        { p with knockedIn := false, hasKnockDecision := true, ready := false,
                 wentSet := true, setType := "single", setAmount := st.potValue,
                 money := if p.money - st.potValue < 0 then 0
                          else p.money - st.potValue }) (fun p => rfl)
    show findPlayer (updatePlayer st.players st.dealerId (fun p =>
        { p with knockedIn := false, hasKnockDecision := true, ready := false,
                 wentSet := true, setType := "single", setAmount := st.potValue,
                 money := if p.money - st.potValue < 0 then 0
                          else p.money - st.potValue })) st.dealerId = _
    rw [hfp, hfind]
    rfl
  · intro st h
    unfold dealerPassAtKnock
    rw [if_pos (by simp [h])]
    rfl
  · intro st h
    constructor
    · unfold dealerPassAtKnock
      rw [if_neg (by simp [h]), if_pos (by simp [h])]
      rfl
    · intro i hi hki
      unfold dealerPassAtKnock
      rw [if_neg (by simp [h]), if_pos (by simp [h])]
      show (((chargeDealerSingle st).players.map (fun p =>
          if p.ready && p.knockedIn then
            { p with tricksWon := 3, money := p.money + st.potValue,
                     roundOutcome := "win" }
          else p)).getD i default) = _
      rw [getD_map_players _ _ i hi]
      dsimp only
      rw [if_pos hki]
  · intro st h2 hbs
    unfold dealerPassAtKnock
    rw [if_neg (by intro hc; simp only [beq_iff_eq] at hc; omega), if_neg (by intro hc; simp only [beq_iff_eq] at hc; omega)]
    unfold startTrickTakingPhase
    rw [hbs]
  · intro st d hphase hfind
    have hred : handleDealerGoSet st st.dealerId true
        = if (remainingKnockedIn (chargeDealerGoSet st)).length == 0 then
            endRoundWithoutTricksSync (chargeDealerGoSet st)
          else
            startTrickTakingPhase (chargeDealerGoSet st) := by
      unfold handleDealerGoSet
      rw [if_neg (by rw [hphase]; decide), hfind]
      dsimp only
      rw [if_neg (by simp), if_pos rfl]
    constructor
    · intro h0
      rw [hred, if_pos (by simp [h0])]
    · intro h1 hbs
      rw [hred, if_neg (by intro hc; simp only [beq_iff_eq] at hc; omega)]
      unfold startTrickTakingPhase
      rw [hbs]
      exact ⟨rfl, rfl⟩

/-- Knock-in state where a dealer pass leaves nobody knocked in. -/
def c7K0State : GState := mkState [mkPlayer "d" 100] "d" 9 RoundState.knockIn

/-- Knock-in state where a dealer pass leaves exactly one knocked-in
non-dealer (`p`). -/
def c7K1State : GState :=
  mkState [{ mkPlayer "p" 100 with knockedIn := true }, mkPlayer "d" 100] "d" 9
    RoundState.knockIn

/-- Knock-in state where a dealer pass leaves two knocked-in non-dealers. -/
def c7K2State : GState :=
  mkState [{ mkPlayer "p" 100 with knockedIn := true },
    { mkPlayer "q" 100 with knockedIn := true }, mkPlayer "d" 100] "d" 9
    RoundState.knockIn

/-- Witness for the amended C7 theorem: single-tier charges on both paths
(pot 9¢); the three knock-decision branch counts at `c7K0State`/`c7K1State`
/`c7K2State` (end, end + survivor auto-award, trick play); and the
dealer-go-set path at `c7State`, where the sole survivor proceeds to trick
play with the players exactly as the charge left them. -/
theorem dealerPass_amended_witness :
    (findPlayer (chargeDealerSingle c7K1State).players "d").map PlayerS.setType
        = some "single"
    ∧ (findPlayer (chargeDealerGoSet c7State).players "d").map PlayerS.setAmount
        = some 9
    ∧ (dealerPassAtKnock c7K0State).roundState = RoundState.roundEnd
    ∧ (dealerPassAtKnock c7K1State).roundState = RoundState.roundEnd
    ∧ (dealerPassAtKnock c7K1State).players.getD 0 default
        = { (chargeDealerSingle c7K1State).players.getD 0 default with
              tricksWon := 3
              money := ((chargeDealerSingle c7K1State).players.getD 0 default).money + 9
              roundOutcome := "win" }
    ∧ (dealerPassAtKnock c7K2State).roundState = RoundState.turns
    ∧ (handleDealerGoSet c7State "d" true).roundState = RoundState.turns
    ∧ (handleDealerGoSet c7State "d" true).players = (chargeDealerGoSet c7State).players := by
  obtain ⟨h1, h2, h3, h4, h5, h6⟩ := dealerPass_amended
  refine ⟨?_, ?_, ?_, ?_, ?_, ?_, ?_, ?_⟩
  · exact congrArg (Option.map PlayerS.setType)
      ((h1 c7K1State (mkPlayer "d" 100) (by decide)).1)
  · exact congrArg (Option.map PlayerS.setAmount)
      ((h2 c7State c7D (by decide)).1)
  · exact h3 c7K0State (by decide)
  · exact (h4 c7K1State (by decide)).1
  · exact (h4 c7K1State (by decide)).2 0 (by decide) (by decide)
  · exact h5 c7K2State (by decide) (by decide)
  · exact ((h6 c7State c7D rfl (by decide)).2 (by decide) (by decide)).1
  · exact ((h6 c7State c7D rfl (by decide)).2 (by decide) (by decide)).2

/-- **C9.** Out-of-phase, wrong-actor and out-of-range intents are silently
dropped: `playCard` from anyone but the current turn player, outside the
`turns` phase, or with a card index beyond the sender's hand returns the
state unchanged; `knockIn` outside the knock-in phase, from an unknown
session, from a player who already decided, or from anyone but the current
knock player likewise returns the state unchanged.  No error field or
message is produced — the handlers' only output is the state. -/
theorem silent_guard_drops :
    (∀ st sender idx, sender ≠ st.currentTurnPlayerId →
        handlePlayCard st sender idx = st)
    ∧ (∀ st sender idx, st.roundState ≠ RoundState.turns →
        handlePlayCard st sender idx = st)
    ∧ (∀ st sender idx p, findPlayer st.players sender = some p →
        p.hand.length ≤ idx → handlePlayCard st sender idx = st)
    ∧ (∀ st sender b, st.roundState ≠ RoundState.knockIn →
        handleKnockIn st sender b = st)
    ∧ (∀ st sender b, findPlayer st.players sender = none →
        handleKnockIn st sender b = st)
    ∧ (∀ st sender b p, findPlayer st.players sender = some p →
        p.hasKnockDecision = true → handleKnockIn st sender b = st)
    ∧ (∀ st sender b p, findPlayer st.players sender = some p →
        p.hasKnockDecision = false → sender ≠ st.currentKnockPlayerId →
        handleKnockIn st sender b = st) := by
  refine ⟨?_, ?_, ?_, ?_, ?_, ?_, ?_⟩
  · intro st sender idx h
    unfold handlePlayCard
    rw [if_pos (bne_iff_ne.mpr h)]
  · intro st sender idx h
    unfold handlePlayCard
    by_cases hs : (sender != st.currentTurnPlayerId) = true
    · rw [if_pos hs]
    · rw [if_neg hs, if_pos (bne_iff_ne.mpr h)]
  · intro st sender idx p hfind hlen
    unfold handlePlayCard
    by_cases hs : (sender != st.currentTurnPlayerId) = true
    · rw [if_pos hs]
    · rw [if_neg hs]
      by_cases hr : (st.roundState != RoundState.turns) = true
      · rw [if_pos hr]
      · rw [if_neg hr, hfind]
        dsimp only
        rw [if_pos hlen]
  · intro st sender b h
    unfold handleKnockIn
    rw [if_pos (bne_iff_ne.mpr h)]
  · intro st sender b h
    unfold handleKnockIn
    by_cases hr : (st.roundState != RoundState.knockIn) = true
    · rw [if_pos hr]
    · rw [if_neg hr, h]
  · intro st sender b p hfind hdec
    unfold handleKnockIn
    by_cases hr : (st.roundState != RoundState.knockIn) = true
    · rw [if_pos hr]
    · rw [if_neg hr, hfind]
      dsimp only
      rw [if_pos hdec]
  · intro st sender b p hfind hdec hturn
    unfold handleKnockIn
    by_cases hr : (st.roundState != RoundState.knockIn) = true
    · rw [if_pos hr]
    · rw [if_neg hr, hfind]
      dsimp only
      rw [if_neg (by rw [hdec]; exact Bool.false_ne_true),
        if_pos (bne_iff_ne.mpr hturn)]

/-- Witness for the C9 guard theorem: at concrete states all seven dropped
intents — wrong turn player, wrong phase and out-of-range index for
`playCard`; wrong phase, unknown session, already-decided player and wrong
knock player for `knockIn` — leave the state exactly as it was. -/
theorem silent_guard_drops_witness :
    handlePlayCard c6State "x" 0 = c6State
    ∧ handlePlayCard c6State "" 0 = c6State
    ∧ handlePlayCard c3State "a" 0 = c3State
    ∧ handleKnockIn c7State "d" true = c7State
    ∧ handleKnockIn c6State "z" true = c6State
    ∧ handleKnockIn c6State "b" true = c6State
    ∧ handleKnockIn c6State "d" true = c6State := by
  obtain ⟨h1, h2, h3, h4, h5, h6, h7⟩ := silent_guard_drops
  exact ⟨h1 c6State "x" 0 (by decide), h2 c6State "" 0 (by decide),
    h3 c3State "a" 0 c3A (by decide) (by decide),
    h4 c7State "d" true (by decide), h5 c6State "z" true (by decide),
    h6 c6State "b" true c6B (by decide) (by decide),
    h7 c6State "d" true c6D (by decide) (by decide) (by decide)⟩
